import Mathlib

/-
Verification development for the gbcrs emulator core.

The Rust sources under src/arch are embedded shallowly:
  - machine integers are Nat with explicit truncation (x % 256 for u8 casts
    and wrapping u8 arithmetic, x % 65536 for wrapping u16 arithmetic); the
    bitwise operators mirror the source expressions;
  - panicking paths (panic, unimplemented, todo) become Option results, with
    none meaning the program aborts;
  - the CPU (src/arch/cpu.rs) is embedded as a step machine over an abstract
    byte store Mem : Nat -> Nat standing for the bus: the CPU module only
    interacts with the bus through read and write of single bytes, so its
    semantics is parametric in the store.  The address-decoding Bus
    (src/arch.rs) and the Memory subsystem (src/arch/memory.rs) are embedded
    separately below for the claims that concern them.
-/

namespace GB

/-- SystemMode from src/arch.rs. -/
inductive SystemMode where
  | Gameboy
  | GameboyPocket
  | SuperGameboy
  | SuperGameboy2
  | GameboyColorDMG
  | GameboyColorGBC
deriving DecidableEq, Repr

/-- Flag bit masks of FlagsReg (cpu.rs): Zero = 0x80, Negative = 0x40,
HalfCarry = 0x20, Carry = 0x10. -/
def maskZ : Nat := 128
def maskN : Nat := 64
def maskH : Nat := 32
def maskC : Nat := 16

/-- bitflags set: insert the mask bits when v is true, remove them otherwise
(bits = bits OR mask, resp. bits = bits AND NOT mask, with NOT on u8 being
XOR 0xFF). -/
def fset (f mask : Nat) (v : Bool) : Nat :=
  if v then f ||| mask else f &&& (mask ^^^ 255)

/-- bitflags contains / intersects for a single-bit mask: the bit is present. -/
def fget (f mask : Nat) : Bool :=
  f &&& mask != 0

/-- Rust u8 rotate_left(1). -/
def rotl8 (a : Nat) : Nat := ((a <<< 1) % 256) ||| (a >>> 7)

/-- Rust u8 rotate_right(1). -/
def rotr8 (a : Nat) : Nat := (a >>> 1) ||| ((a % 2) <<< 7)

/-- Sign extension of a byte to u16 (Rust: as i8 as u16). -/
def sext8 (v : Nat) : Nat := if v < 128 then v else v + 65280

/-- alu_add from cpu.rs: (result, zero, negative, half, carry) of the
wrapping u8 addition. -/
def alu_add (lhs rhs : Nat) : Nat × Bool × Bool × Bool × Bool :=
  let result := (lhs + rhs) % 256
  (result, result == 0, 128 ≤ result,
   (((lhs &&& 15) + (rhs &&& 15)) &&& 16) != 0,
   256 ≤ lhs + rhs)

/-- alu_add_u16 from cpu.rs: half carry out of bit 11, carry out of bit 15. -/
def alu_add_u16 (lhs rhs : Nat) : Nat × Bool × Bool × Bool × Bool :=
  let result := (lhs + rhs) % 65536
  (result, result == 0, 32768 ≤ result,
   (((lhs &&& 4095) + (rhs &&& 4095)) &&& 4096) != 0,
   65536 ≤ lhs + rhs)

/-- alu_sub from cpu.rs: wrapping u8 subtraction; the half flag is bit 4 of
the wrapping nibble difference, the carry flag is the u8 borrow. -/
def alu_sub (lhs rhs : Nat) : Nat × Bool × Bool × Bool × Bool :=
  let result := (lhs + 256 - rhs) % 256
  (result, result == 0, 128 ≤ result,
   ((((lhs &&& 15) + 256 - (rhs &&& 15)) % 256) &&& 16) != 0,
   lhs < rhs)

/-- alu_adc from cpu.rs: add with carry-in folded into result, half and
carry. -/
def alu_adc (lhs rhs : Nat) (carry : Bool) : Nat × Bool × Bool × Bool × Bool :=
  let result := (lhs + rhs + carry.toNat) % 256
  (result, result == 0, 128 ≤ result,
   (((lhs &&& 15) + (rhs &&& 15) + carry.toNat) &&& 16) != 0,
   (256 ≤ lhs + rhs) || (carry && result == 0))

/-- Register file (struct Regs in cpu.rs).  All fields are byte valued
(sp and pc are u16 valued); boundedness is carried as hypotheses where a
theorem needs it. -/
structure Regs where
  a : Nat
  f : Nat
  b : Nat
  c : Nat
  d : Nat
  e : Nat
  h : Nat
  l : Nat
  sp : Nat
  pc : Nat
deriving Repr

/-- Regs::new: per-mode initial register values; SuperGameboy2 is a
construction-time panic (unimplemented). -/
def Regs.new (mode : SystemMode) : Option Regs :=
  match mode with
  | .Gameboy => some { a := 0x01, f := 0xB0, b := 0x00, c := 0x13, d := 0x00,
                       e := 0xD8, h := 0x01, l := 0x4D, sp := 0xFFFE, pc := 0x0000 }
  | .GameboyPocket => some { a := 0xFF, f := 0xB0, b := 0x00, c := 0x13, d := 0x00,
                             e := 0xD8, h := 0x01, l := 0x4D, sp := 0xFFFE, pc := 0x0000 }
  | .SuperGameboy => some { a := 0x01, f := 0x00, b := 0x00, c := 0x14, d := 0x00,
                            e := 0x00, h := 0xC0, l := 0x60, sp := 0xFFFE, pc := 0x0000 }
  | .SuperGameboy2 => none
  | .GameboyColorDMG => some { a := 0x11, f := 0x80, b := 0x00, c := 0x00, d := 0x00,
                               e := 0x08, h := 0x00, l := 0x7C, sp := 0xFFFE, pc := 0x0000 }
  | .GameboyColorGBC => some { a := 0x11, f := 0x80, b := 0x00, c := 0x00, d := 0xFF,
                               e := 0x56, h := 0x00, l := 0x0D, sp := 0xFFFE, pc := 0x0000 }

/-- 16-bit pair AF = (a << 8) | f. -/
def Regs.af (r : Regs) : Nat := (r.a <<< 8) ||| r.f

/-- 16-bit pair BC. -/
def Regs.bc (r : Regs) : Nat := (r.b <<< 8) ||| r.c

/-- 16-bit pair DE. -/
def Regs.de (r : Regs) : Nat := (r.d <<< 8) ||| r.e

/-- 16-bit pair HL. -/
def Regs.hl (r : Regs) : Nat := (r.h <<< 8) ||| r.l

/-- Low byte of SP (Rust: sp as u8). -/
def Regs.splo (r : Regs) : Nat := r.sp % 256

/-- High byte of SP. -/
def Regs.sphi (r : Regs) : Nat := (r.sp >>> 8) % 256

/-- Low byte of PC. -/
def Regs.pclo (r : Regs) : Nat := r.pc % 256

/-- High byte of PC. -/
def Regs.pchi (r : Regs) : Nat := (r.pc >>> 8) % 256

/-- Regs::set_af from cpu.rs lines 169-173: a = val >> 8 and
f.bits = val & 0x00FF.  Note that the low nibble of the written F value is
NOT masked here (unlike the pop and push procedures, which mask with 0xF0).
The function is defined in the source but never called by any instruction
procedure. -/
def Regs.set_af (r : Regs) (val : Nat) : Regs :=
  { r with a := (val >>> 8) % 256, f := val &&& 255 }

/-- Regs::set_bc. -/
def Regs.set_bc (r : Regs) (val : Nat) : Regs :=
  { r with b := (val >>> 8) % 256, c := val &&& 255 }

/-- Regs::set_de. -/
def Regs.set_de (r : Regs) (val : Nat) : Regs :=
  { r with d := (val >>> 8) % 256, e := val &&& 255 }

/-- Regs::set_hl. -/
def Regs.set_hl (r : Regs) (val : Nat) : Regs :=
  { r with h := (val >>> 8) % 256, l := val &&& 255 }

/-- Regs::set_splo: keep the high byte, replace the low byte. -/
def Regs.set_splo (r : Regs) (val : Nat) : Regs :=
  { r with sp := (r.sp &&& 65280) ||| (val % 256) }

/-- Regs::set_sphi. -/
def Regs.set_sphi (r : Regs) (val : Nat) : Regs :=
  { r with sp := ((val % 256) <<< 8) ||| (r.sp &&& 255) }

/-- Regs::set_pclo. -/
def Regs.set_pclo (r : Regs) (val : Nat) : Regs :=
  { r with pc := (r.pc &&& 65280) ||| (val % 256) }

/-- Regs::set_pchi. -/
def Regs.set_pchi (r : Regs) (val : Nat) : Regs :=
  { r with pc := ((val % 256) <<< 8) ||| (r.pc &&& 255) }

/-- The byte store the CPU sees through the bus: an address to byte map. -/
def Mem : Type := Nat → Nat

/-- A bus read as the CPU observes it: a byte (the u8 return type is modelled
by truncating the stored value). -/
def bread (m : Mem) (a : Nat) : Nat := m a % 256

/-- A bus write: update the store at the given address. -/
def bwrite (m : Mem) (a d : Nat) : Mem := fun x => if x = a then d else m x

end GB

namespace GB

/-- Tags naming the ~60 step functions of cpu.rs; the Rust code stores a
function pointer in the procedure record, the embedding stores this tag and
dispatches through stepOf below. -/
inductive ProcKind where
  | nop | stop | ld_u16sp | ld_u16a | ld_au16
  | jr_d | jr_cond | jp_u16 | jp_hl
  | di | ei
  | inc_r | dec_r | inc_rp | dec_rp
  | add_ar | sub_ar | and_ar | xor_ar | or_ar | cp_ar
  | ld_ru8 | ld_rr
  | rlca | rrca | rla | rra | daa | cpl | scf | ccf
  | add_au8 | adc_au8 | sub_au8 | and_au8 | xor_au8 | or_au8 | cp_au8
  | ld_toindirect | ld_fromindirect
  | pop | push
  | call_cond | call_u16 | ret | ret_cond
  | add_hlrp | ld_sphl | ld_rpu16
  | ld_toio_c | ld_fromio_c | ld_toio_u8 | ld_fromio_u8
  | rot | bit | res | set
deriving DecidableEq, Repr

/-- struct InstructionProcedure (cpu.rs). -/
structure Proc where
  done : Bool
  func : ProcKind
  mcycle : Nat
  tmp0 : Nat
  tmp1 : Nat
deriving Repr

/-- InstructionProcedure::new. -/
def Proc.new (k : ProcKind) : Proc :=
  { done := false, func := k, mcycle := 1, tmp0 := 0, tmp1 := 0 }

/-- struct Cpu (cpu.rs).  The mode field and instr_count are kept for
fidelity; procedure is the in-flight micro-procedure. -/
structure Cpu where
  instr_count : Nat
  mode : SystemMode
  tcount : Nat
  procedure : Option Proc
  regs : Regs
  interrupt_flags : Nat
  interrupt_enable : Nat
  en_ime : Bool × Nat
  ime : Bool
deriving Repr

/-- Cpu::new; none when Regs::new panics (SuperGameboy2). -/
def Cpu.new (mode : SystemMode) : Option Cpu :=
  (Regs.new mode).map fun r =>
    { instr_count := 1, mode := mode, tcount := 0, procedure := none,
      regs := r, interrupt_flags := 0, interrupt_enable := 0,
      en_ime := (false, 0), ime := false }

/-- Cpu::fetch: read one byte at PC and advance PC (wrapping u16). -/
def Cpu.fetch (c : Cpu) (m : Mem) : Nat × Cpu :=
  (bread m c.regs.pc, { c with regs := { c.regs with pc := (c.regs.pc + 1) % 65536 } })

/-- Cpu::stack_push: decrement SP (wrapping) then write the byte there. -/
def Cpu.stack_push (c : Cpu) (m : Mem) (d : Nat) : Cpu × Mem :=
  let sp := (c.regs.sp + 65535) % 65536
  ({ c with regs := { c.regs with sp := sp } }, bwrite m sp d)

/-- Cpu::stack_pop: read the byte at SP then increment SP (wrapping). -/
def Cpu.stack_pop (c : Cpu) (m : Mem) : Nat × Cpu :=
  (bread m c.regs.sp, { c with regs := { c.regs with sp := (c.regs.sp + 1) % 65536 } })

/-- The wrapping address of the already-consumed opcode byte,
bus.read(cpu.regs.pc - 1) in the source. -/
def pcm1 (pc : Nat) : Nat := (pc + 65535) % 65536

/-- A step function: receives the procedure, the CPU and the bus (byte
store); none models a panic. -/
def Step : Type := Proc → Cpu → Mem → Option (Proc × Cpu × Mem)

/-- The register table match z { 0 b, 1 c, 2 d, 3 e, 4 h, 5 l, 7 a } that
inc_r, dec_r, ld_ru8, ld_rr, rot, bit, res and set repeat inline; the
index-6 arm (memory operand, early return or unreachable panic) is handled
at each call site, matching the source. -/
def rsel (r : Regs) (z : Nat) : Nat :=
  if z = 0 then r.b else if z = 1 then r.c else if z = 2 then r.d
  else if z = 3 then r.e else if z = 4 then r.h else if z = 5 then r.l
  else r.a

/-- Store into the register selected by the same table. -/
def rstore (r : Regs) (z v : Nat) : Regs :=
  if z = 0 then { r with b := v } else if z = 1 then { r with c := v }
  else if z = 2 then { r with d := v } else if z = 3 then { r with e := v }
  else if z = 4 then { r with h := v } else if z = 5 then { r with l := v }
  else { r with a := v }

/-- The operand table shared verbatim by the six ALU register procedures
add_ar, sub_ar, and_ar, xor_ar, or_ar and cp_ar in cpu.rs.  NOTE: in all six,
the source maps BOTH index 2 and index 3 to register d (the index-3 arm reads
cpu.regs.d, not cpu.regs.e). -/
def aluRsel (r : Regs) (z : Nat) : Nat :=
  if z = 0 then r.b else if z = 1 then r.c else if z = 2 then r.d
  else if z = 3 then r.d else if z = 4 then r.h else if z = 5 then r.l
  else r.a

/-- The condition table cc of jr_cond, ret_cond and call_cond:
NZ, Z, NC, C for index 0..3; other indices hit the panic arm. -/
def ccSel (f y : Nat) : Option Bool :=
  if y = 0 then some (!(fget f maskZ))
  else if y = 1 then some (fget f maskZ)
  else if y = 2 then some (!(fget f maskC))
  else if y = 3 then some (fget f maskC)
  else none

/-- The register-pair table rp of inc_rp, dec_rp and add_hlrp:
BC, DE, HL, SP for index 0..3; other indices hit the panic arm. -/
def rp16 (r : Regs) (p : Nat) : Option Nat :=
  if p = 0 then some r.bc else if p = 1 then some r.de
  else if p = 2 then some r.hl else if p = 3 then some r.sp else none

end GB

namespace GB

/-- nop (0x00): done immediately. -/
def nop : Step := fun p c m => some ({ p with done := true }, c, m)

/-- stop (0x10): panics. -/
def stop : Step := fun _ _ _ => none

/-- ld_u16sp (0x08).  Note the source writes both SP bytes to the same
address built from tmp1/tmp0. -/
def ld_u16sp : Step := fun p c m =>
  if p.mcycle = 2 then
    let (v, c) := c.fetch m
    some ({ p with tmp0 := v }, c, m)
  else if p.mcycle = 3 then
    let (v, c) := c.fetch m
    some ({ p with tmp1 := v }, c, m)
  else if p.mcycle = 4 then
    some (p, c, bwrite m ((p.tmp1 <<< 8) ||| p.tmp0) c.regs.splo)
  else if p.mcycle = 5 then
    some ({ p with done := true }, c, bwrite m ((p.tmp1 <<< 8) ||| p.tmp0) c.regs.sphi)
  else some (p, c, m)

/-- ld_u16a (0xEA). -/
def ld_u16a : Step := fun p c m =>
  if p.mcycle = 2 then
    let (v, c) := c.fetch m
    some ({ p with tmp0 := v }, c, m)
  else if p.mcycle = 3 then
    let (v, c) := c.fetch m
    some ({ p with tmp1 := v }, c, m)
  else if p.mcycle = 4 then
    some ({ p with done := true }, c, bwrite m ((p.tmp1 <<< 8) ||| p.tmp0) c.regs.a)
  else some (p, c, m)

/-- ld_au16 (0xFA). -/
def ld_au16 : Step := fun p c m =>
  if p.mcycle = 2 then
    let (v, c) := c.fetch m
    some ({ p with tmp0 := v }, c, m)
  else if p.mcycle = 3 then
    let (v, c) := c.fetch m
    some ({ p with tmp1 := v }, c, m)
  else if p.mcycle = 4 then
    let v := bread m ((p.tmp1 <<< 8) ||| p.tmp0)
    some ({ p with done := true }, { c with regs := { c.regs with a := v } }, m)
  else some (p, c, m)

/-- jr_d (0x18). -/
def jr_d : Step := fun p c m =>
  if p.mcycle = 2 then
    let (v, c) := c.fetch m
    some ({ p with tmp0 := v }, c, m)
  else if p.mcycle = 3 then
    some ({ p with done := true },
          { c with regs := { c.regs with pc := (c.regs.pc + sext8 p.tmp0) % 65536 } }, m)
  else some (p, c, m)

/-- jr_cond (0x20, 0x28, 0x30, 0x38).  Mcycle 2 stores y-4 and fetches the
displacement; mcycle 3 evaluates the condition and retires early when false;
the taken path runs through mcycles 4 and 5. -/
def jr_cond : Step := fun p c m =>
  if p.mcycle = 2 then
    let opcode := bread m (pcm1 c.regs.pc)
    let p := { p with tmp0 := ((opcode &&& 56) >>> 3) - 4 }
    let (v, c) := c.fetch m
    some ({ p with tmp1 := v }, c, m)
  else if p.mcycle = 3 then
    match ccSel c.regs.f p.tmp0 with
    | none => none
    | some cond =>
      if !cond then some ({ p with done := true }, c, m)
      else some (p, c, m)
  else if p.mcycle = 4 then
    some (p, c, m)
  else if p.mcycle = 5 then
    some ({ p with done := true },
          { c with regs := { c.regs with pc := (c.regs.pc + sext8 p.tmp1) % 65536 } }, m)
  else some (p, c, m)

/-- jp_u16 (0xC3). -/
def jp_u16 : Step := fun p c m =>
  if p.mcycle = 2 then
    let (v, c) := c.fetch m
    some ({ p with tmp0 := v }, c, m)
  else if p.mcycle = 3 then
    let (v, c) := c.fetch m
    some ({ p with tmp1 := v }, c, m)
  else if p.mcycle = 4 then
    some ({ p with done := true },
          { c with regs := (c.regs.set_pclo p.tmp0).set_pchi p.tmp1 }, m)
  else some (p, c, m)

/-- jp_hl (0xE9). -/
def jp_hl : Step := fun p c m =>
  if p.mcycle = 1 then
    some ({ p with done := true }, { c with regs := { c.regs with pc := c.regs.hl } }, m)
  else some (p, c, m)

/-- di (0xF3). -/
def di : Step := fun p c m =>
  if p.mcycle = 1 then
    some ({ p with done := true }, { c with ime := false }, m)
  else some (p, c, m)

/-- ei (0xFB). -/
def ei : Step := fun p c m =>
  if p.mcycle = 1 then
    some ({ p with done := true }, { c with en_ime := (true, 0) }, m)
  else some (p, c, m)

/-- inc_r (0x04, 0x0C, ...): mcycle 1 handles the register case (index 6
defers to the (HL) path of mcycles 2 and 3). -/
def inc_r : Step := fun p c m =>
  if p.mcycle = 1 then
    let opcode := bread m (pcm1 c.regs.pc)
    let y := (opcode &&& 56) >>> 3
    if y = 6 then some (p, c, m)
    else
      let (result, zer, _, half, _) := alu_add (rsel c.regs y) 1
      let r := rstore c.regs y result
      let f := fset (fset (fset r.f maskZ zer) maskN false) maskH half
      some ({ p with done := true }, { c with regs := { r with f := f } }, m)
  else if p.mcycle = 2 then
    let (result, _, _, half, _) := alu_add (bread m c.regs.hl) 1
    some ({ p with tmp0 := result, tmp1 := half.toNat }, c, m)
  else if p.mcycle = 3 then
    let f := fset (fset (fset c.regs.f maskZ (p.tmp0 == 0)) maskN false) maskH (p.tmp1 != 0)
    some ({ p with done := true }, { c with regs := { c.regs with f := f } },
          bwrite m c.regs.hl p.tmp0)
  else some (p, c, m)

/-- dec_r (0x05, 0x0D, ...). -/
def dec_r : Step := fun p c m =>
  if p.mcycle = 1 then
    let opcode := bread m (pcm1 c.regs.pc)
    let y := (opcode &&& 56) >>> 3
    if y = 6 then some (p, c, m)
    else
      let (result, _, _, half, _) := alu_sub (rsel c.regs y) 1
      let r := rstore c.regs y result
      let f := fset (fset (fset r.f maskZ (result == 0)) maskN true) maskH half
      some ({ p with done := true }, { c with regs := { r with f := f } }, m)
  else if p.mcycle = 2 then
    let (result, _, _, half, _) := alu_sub (bread m c.regs.hl) 1
    some ({ p with tmp0 := result, tmp1 := half.toNat }, c, m)
  else if p.mcycle = 3 then
    let f := fset (fset (fset c.regs.f maskZ (p.tmp0 == 0)) maskN true) maskH (p.tmp1 != 0)
    some ({ p with done := true }, { c with regs := { c.regs with f := f } },
          bwrite m c.regs.hl p.tmp0)
  else some (p, c, m)

/-- inc_rp (0x03, 0x13, 0x23, 0x33): lower byte in mcycle 1, upper in 2. -/
def inc_rp : Step := fun p c m =>
  if p.mcycle = 1 then
    let opcode := bread m (pcm1 c.regs.pc)
    let p := { p with tmp0 := (opcode &&& 48) >>> 4 }
    match rp16 c.regs p.tmp0 with
    | none => none
    | some v =>
      let result := (v + 1) % 65536
      let p := { p with tmp1 := (result >>> 8) % 256 }
      let r :=
        if p.tmp0 = 0 then { c.regs with c := result % 256 }
        else if p.tmp0 = 1 then { c.regs with e := result % 256 }
        else if p.tmp0 = 2 then { c.regs with l := result % 256 }
        else c.regs.set_splo (result % 256)
      some (p, { c with regs := r }, m)
  else if p.mcycle = 2 then
    if p.tmp0 = 0 then some ({ p with done := true }, { c with regs := { c.regs with b := p.tmp1 } }, m)
    else if p.tmp0 = 1 then some ({ p with done := true }, { c with regs := { c.regs with d := p.tmp1 } }, m)
    else if p.tmp0 = 2 then some ({ p with done := true }, { c with regs := { c.regs with h := p.tmp1 } }, m)
    else if p.tmp0 = 3 then some ({ p with done := true }, { c with regs := c.regs.set_sphi p.tmp1 }, m)
    else none
  else some (p, c, m)

/-- dec_rp (0x0B, 0x1B, 0x2B, 0x3B).  NOTE: the source of the mcycle-2 arm
selects the destination with tmp0 >> 4 instead of tmp0; the embedding keeps
that slip. -/
def dec_rp : Step := fun p c m =>
  if p.mcycle = 1 then
    let opcode := bread m (pcm1 c.regs.pc)
    let p := { p with tmp0 := (opcode &&& 48) >>> 4 }
    match rp16 c.regs p.tmp0 with
    | none => none
    | some v =>
      let result := (v + 65535) % 65536
      let p := { p with tmp1 := (result >>> 8) % 256 }
      let r :=
        if p.tmp0 = 0 then { c.regs with c := result % 256 }
        else if p.tmp0 = 1 then { c.regs with e := result % 256 }
        else if p.tmp0 = 2 then { c.regs with l := result % 256 }
        else c.regs.set_splo (result % 256)
      some (p, { c with regs := r }, m)
  else if p.mcycle = 2 then
    if p.tmp0 >>> 4 = 0 then some ({ p with done := true }, { c with regs := { c.regs with b := p.tmp1 } }, m)
    else if p.tmp0 >>> 4 = 1 then some ({ p with done := true }, { c with regs := { c.regs with d := p.tmp1 } }, m)
    else if p.tmp0 >>> 4 = 2 then some ({ p with done := true }, { c with regs := { c.regs with h := p.tmp1 } }, m)
    else if p.tmp0 >>> 4 = 3 then some ({ p with done := true }, { c with regs := c.regs.set_sphi p.tmp1 }, m)
    else none
  else some (p, c, m)

end GB

namespace GB

/-- add_ar (0x80-0x87); operand from aluRsel, index 6 defers to the (HL)
path in mcycle 2. -/
def add_ar : Step := fun p c m =>
  if p.mcycle = 1 then
    let opcode := bread m (pcm1 c.regs.pc)
    let z := opcode &&& 7
    if z = 6 then some (p, c, m)
    else
      let (result, zer, _, half, carry) := alu_add c.regs.a (aluRsel c.regs z)
      let f := fset (fset (fset (fset c.regs.f maskZ zer) maskN false) maskH half) maskC carry
      some ({ p with done := true }, { c with regs := { c.regs with a := result, f := f } }, m)
  else if p.mcycle = 2 then
    let (result, zer, _, half, carry) := alu_add c.regs.a (bread m c.regs.hl)
    let f := fset (fset (fset (fset c.regs.f maskZ zer) maskN false) maskH half) maskC carry
    some ({ p with done := true }, { c with regs := { c.regs with a := result, f := f } }, m)
  else some (p, c, m)

/-- sub_ar (0x90-0x97). -/
def sub_ar : Step := fun p c m =>
  if p.mcycle = 1 then
    let opcode := bread m (pcm1 c.regs.pc)
    let z := opcode &&& 7
    if z = 6 then some (p, c, m)
    else
      let (result, zer, _, half, carry) := alu_sub c.regs.a (aluRsel c.regs z)
      let f := fset (fset (fset (fset c.regs.f maskZ zer) maskN true) maskH half) maskC carry
      some ({ p with done := true }, { c with regs := { c.regs with a := result, f := f } }, m)
  else if p.mcycle = 2 then
    let (result, zer, _, half, carry) := alu_sub c.regs.a (bread m c.regs.hl)
    let f := fset (fset (fset (fset c.regs.f maskZ zer) maskN true) maskH half) maskC carry
    some ({ p with done := true }, { c with regs := { c.regs with a := result, f := f } }, m)
  else some (p, c, m)

/-- and_ar (0xA0-0xA7).  The register arm of the source clears F and then
sets only Zero (it does not set HalfCarry); the (HL) arm sets HalfCarry. -/
def and_ar : Step := fun p c m =>
  if p.mcycle = 1 then
    let opcode := bread m (pcm1 c.regs.pc)
    let z := opcode &&& 7
    if z = 6 then some (p, c, m)
    else
      let a := c.regs.a &&& aluRsel c.regs z
      let f := fset 0 maskZ (a == 0)
      some ({ p with done := true }, { c with regs := { c.regs with a := a, f := f } }, m)
  else if p.mcycle = 2 then
    let a := c.regs.a &&& bread m c.regs.hl
    let f := fset (fset 0 maskZ (a == 0)) maskH true
    some ({ p with done := true }, { c with regs := { c.regs with a := a, f := f } }, m)
  else some (p, c, m)

/-- xor_ar (0xA8-0xAF). -/
def xor_ar : Step := fun p c m =>
  if p.mcycle = 1 then
    let opcode := bread m (pcm1 c.regs.pc)
    let z := opcode &&& 7
    if z = 6 then some (p, c, m)
    else
      let a := c.regs.a ^^^ aluRsel c.regs z
      let f := fset 0 maskZ (a == 0)
      some ({ p with done := true }, { c with regs := { c.regs with a := a, f := f } }, m)
  else if p.mcycle = 2 then
    let a := c.regs.a ^^^ bread m c.regs.hl
    let f := fset 0 maskZ (a == 0)
    some ({ p with done := true }, { c with regs := { c.regs with a := a, f := f } }, m)
  else some (p, c, m)

/-- or_ar (0xB0-0xB7). -/
def or_ar : Step := fun p c m =>
  if p.mcycle = 1 then
    let opcode := bread m (pcm1 c.regs.pc)
    let z := opcode &&& 7
    if z = 6 then some (p, c, m)
    else
      let a := c.regs.a ||| aluRsel c.regs z
      let f := fset 0 maskZ (a == 0)
      some ({ p with done := true }, { c with regs := { c.regs with a := a, f := f } }, m)
  else if p.mcycle = 2 then
    let a := c.regs.a ||| bread m c.regs.hl
    let f := fset 0 maskZ (a == 0)
    some ({ p with done := true }, { c with regs := { c.regs with a := a, f := f } }, m)
  else some (p, c, m)

/-- cp_ar (0xB8-0xBF): flags of the subtraction, A unchanged. -/
def cp_ar : Step := fun p c m =>
  if p.mcycle = 1 then
    let opcode := bread m (pcm1 c.regs.pc)
    let z := opcode &&& 7
    if z = 6 then some (p, c, m)
    else
      let (_, zer, _, half, carry) := alu_sub c.regs.a (aluRsel c.regs z)
      let f := fset (fset (fset (fset c.regs.f maskZ zer) maskN true) maskH half) maskC carry
      some ({ p with done := true }, { c with regs := { c.regs with f := f } }, m)
  else if p.mcycle = 2 then
    let (_, zer, _, half, carry) := alu_sub c.regs.a (bread m c.regs.hl)
    let f := fset (fset (fset (fset c.regs.f maskZ zer) maskN true) maskH half) maskC carry
    some ({ p with done := true }, { c with regs := { c.regs with f := f } }, m)
  else some (p, c, m)

/-- ld_ru8 (0x06, 0x0E, ...): mcycle 2 reads the opcode, fetches the
immediate into tmp0 and stores it unless the destination is (HL); mcycle 3
performs the deferred memory write. -/
def ld_ru8 : Step := fun p c m =>
  if p.mcycle = 2 then
    let opcode := bread m (pcm1 c.regs.pc)
    let (v, c) := c.fetch m
    let p := { p with tmp0 := v }
    let y := (opcode &&& 56) >>> 3
    if y = 6 then some (p, c, m)
    else some ({ p with done := true }, { c with regs := rstore c.regs y v }, m)
  else if p.mcycle = 3 then
    some ({ p with done := true }, c, bwrite m c.regs.hl p.tmp0)
  else some (p, c, m)

/-- ld_rr (0x40-0x7F except 0x76): register-to-register in mcycle 1; a (HL)
operand on either side defers to mcycle 2. -/
def ld_rr : Step := fun p c m =>
  if p.mcycle = 1 then
    let opcode := bread m (pcm1 c.regs.pc)
    let y := (opcode &&& 56) >>> 3
    let z := opcode &&& 7
    let p := { p with tmp0 := y, tmp1 := z }
    if z = 6 then some (p, c, m)
    else
      let val := rsel c.regs z
      if y = 6 then some (p, c, m)
      else some ({ p with done := true }, { c with regs := rstore c.regs y val }, m)
  else if p.mcycle = 2 then
    let y := p.tmp0
    let z := p.tmp1
    if y = 6 then
      if z = 6 then none
      else some ({ p with done := true }, c, bwrite m c.regs.hl (rsel c.regs z))
    else if z = 6 then
      let val := bread m c.regs.hl
      some ({ p with done := true }, { c with regs := rstore c.regs y val }, m)
    else none
  else some (p, c, m)

/-- rlca (0x07). -/
def rlca : Step := fun p c m =>
  if p.mcycle = 1 then
    let f := fset 0 maskC ((c.regs.a &&& 128) != 0)
    some ({ p with done := true },
          { c with regs := { c.regs with a := rotl8 c.regs.a, f := f } }, m)
  else some (p, c, m)

/-- rrca (0x0F). -/
def rrca : Step := fun p c m =>
  if p.mcycle = 1 then
    let f := fset 0 maskC ((c.regs.a &&& 1) != 0)
    some ({ p with done := true },
          { c with regs := { c.regs with a := rotr8 c.regs.a, f := f } }, m)
  else some (p, c, m)

/-- rla (0x17). -/
def rla : Step := fun p c m =>
  if p.mcycle = 1 then
    let carry := (c.regs.a &&& 128) != 0
    let a := (rotl8 c.regs.a &&& 254) ||| (fget c.regs.f maskC).toNat
    let f := fset 0 maskC carry
    some ({ p with done := true }, { c with regs := { c.regs with a := a, f := f } }, m)
  else some (p, c, m)

/-- rra (0x1F). -/
def rra : Step := fun p c m =>
  if p.mcycle = 1 then
    let carry := (c.regs.a &&& 1) != 0
    let a := (rotr8 c.regs.a &&& 127) ||| ((fget c.regs.f maskC).toNat <<< 7)
    let f := fset 0 maskC carry
    some ({ p with done := true }, { c with regs := { c.regs with a := a, f := f } }, m)
  else some (p, c, m)

/-- daa (0x27): todo in the source, a panic. -/
def daa : Step := fun _ _ _ => none

/-- cpl (0x2F): todo in the source, a panic. -/
def cpl : Step := fun _ _ _ => none

/-- scf (0x37): todo in the source, a panic. -/
def scf : Step := fun _ _ _ => none

/-- ccf (0x3F): todo in the source, a panic. -/
def ccf : Step := fun _ _ _ => none

end GB

namespace GB

/-- add_au8 (0xC6). -/
def add_au8 : Step := fun p c m =>
  if p.mcycle = 2 then
    let (v, c) := c.fetch m
    let (result, zer, _, half, carry) := alu_add c.regs.a v
    let f := fset (fset (fset (fset c.regs.f maskZ zer) maskN false) maskH half) maskC carry
    some ({ p with done := true }, { c with regs := { c.regs with a := result, f := f } }, m)
  else some (p, c, m)

/-- adc_au8 (0xCE). -/
def adc_au8 : Step := fun p c m =>
  if p.mcycle = 2 then
    let (v, c) := c.fetch m
    let (result, zer, _, half, carry) := alu_adc c.regs.a v (fget c.regs.f maskC)
    let f := fset (fset (fset (fset c.regs.f maskZ zer) maskN false) maskH half) maskC carry
    some ({ p with done := true }, { c with regs := { c.regs with a := result, f := f } }, m)
  else some (p, c, m)

/-- sub_au8 (0xD6). -/
def sub_au8 : Step := fun p c m =>
  if p.mcycle = 2 then
    let (v, c) := c.fetch m
    let (result, zer, _, half, carry) := alu_sub c.regs.a v
    let f := fset (fset (fset (fset c.regs.f maskZ zer) maskN true) maskH half) maskC carry
    some ({ p with done := true }, { c with regs := { c.regs with a := result, f := f } }, m)
  else some (p, c, m)

/-- and_au8 (0xE6). -/
def and_au8 : Step := fun p c m =>
  if p.mcycle = 2 then
    let (v, c) := c.fetch m
    let a := c.regs.a &&& v
    let f := fset (fset 0 maskZ (a == 0)) maskH true
    some ({ p with done := true }, { c with regs := { c.regs with a := a, f := f } }, m)
  else some (p, c, m)

/-- xor_au8 (0xEE). -/
def xor_au8 : Step := fun p c m =>
  if p.mcycle = 2 then
    let (v, c) := c.fetch m
    let a := c.regs.a ^^^ v
    let f := fset 0 maskZ (a == 0)
    some ({ p with done := true }, { c with regs := { c.regs with a := a, f := f } }, m)
  else some (p, c, m)

/-- or_au8 (0xF6). -/
def or_au8 : Step := fun p c m =>
  if p.mcycle = 2 then
    let (v, c) := c.fetch m
    let a := c.regs.a ||| v
    let f := fset 0 maskZ (a == 0)
    some ({ p with done := true }, { c with regs := { c.regs with a := a, f := f } }, m)
  else some (p, c, m)

/-- cp_au8 (0xFE). -/
def cp_au8 : Step := fun p c m =>
  if p.mcycle = 2 then
    let (v, c) := c.fetch m
    let (_, zer, _, half, carry) := alu_sub c.regs.a v
    let f := fset (fset (fset (fset c.regs.f maskZ zer) maskN true) maskH half) maskC carry
    some ({ p with done := true }, { c with regs := { c.regs with f := f } }, m)
  else some (p, c, m)

/-- ld_toindirect (0x02, 0x12, 0x22, 0x32): the source computes the
effective address with the indirect table (BC, DE, HL post-increment, HL
post-decrement; other indices panic) and then performs one write of A; the
shared write is inlined into each arm here. -/
def ld_toindirect : Step := fun p c m =>
  if p.mcycle = 1 then
    let opcode := bread m (pcm1 c.regs.pc)
    some ({ p with tmp0 := (opcode &&& 48) >>> 4 }, c, m)
  else if p.mcycle = 2 then
    if p.tmp0 = 0 then some ({ p with done := true }, c, bwrite m c.regs.bc c.regs.a)
    else if p.tmp0 = 1 then some ({ p with done := true }, c, bwrite m c.regs.de c.regs.a)
    else if p.tmp0 = 2 then
      some ({ p with done := true },
            { c with regs := c.regs.set_hl ((c.regs.hl + 1) % 65536) },
            bwrite m c.regs.hl c.regs.a)
    else if p.tmp0 = 3 then
      some ({ p with done := true },
            { c with regs := c.regs.set_hl ((c.regs.hl + 65535) % 65536) },
            bwrite m c.regs.hl c.regs.a)
    else none
  else some (p, c, m)

/-- ld_fromindirect (0x0A, 0x1A, 0x2A, 0x3A): same indirect table, one read
into A (the HL arms update HL first, then read at the old HL, as in the
source). -/
def ld_fromindirect : Step := fun p c m =>
  if p.mcycle = 1 then
    let opcode := bread m (pcm1 c.regs.pc)
    some ({ p with tmp0 := (opcode &&& 48) >>> 4 }, c, m)
  else if p.mcycle = 2 then
    if p.tmp0 = 0 then
      some ({ p with done := true }, { c with regs := { c.regs with a := bread m c.regs.bc } }, m)
    else if p.tmp0 = 1 then
      some ({ p with done := true }, { c with regs := { c.regs with a := bread m c.regs.de } }, m)
    else if p.tmp0 = 2 then
      some ({ p with done := true },
            { c with regs := { c.regs.set_hl ((c.regs.hl + 1) % 65536) with a := bread m c.regs.hl } }, m)
    else if p.tmp0 = 3 then
      some ({ p with done := true },
            { c with regs := { c.regs.set_hl ((c.regs.hl + 65535) % 65536) with a := bread m c.regs.hl } }, m)
    else none
  else some (p, c, m)

/-- pop (0xC1, 0xD1, 0xE1, 0xF1): low byte in mcycle 2 (F is masked with
0xF0 for AF), high byte in mcycle 3. -/
def pop : Step := fun p c m =>
  if p.mcycle = 1 then
    let opcode := bread m (pcm1 c.regs.pc)
    some ({ p with tmp0 := (opcode &&& 48) >>> 4 }, c, m)
  else if p.mcycle = 2 then
    let (v, c1) := c.stack_pop m
    if p.tmp0 = 0 then some (p, { c1 with regs := { c1.regs with c := v } }, m)
    else if p.tmp0 = 1 then some (p, { c1 with regs := { c1.regs with e := v } }, m)
    else if p.tmp0 = 2 then some (p, { c1 with regs := { c1.regs with l := v } }, m)
    else if p.tmp0 = 3 then some (p, { c1 with regs := { c1.regs with f := v &&& 240 } }, m)
    else none
  else if p.mcycle = 3 then
    let (v, c1) := c.stack_pop m
    if p.tmp0 = 0 then some ({ p with done := true }, { c1 with regs := { c1.regs with b := v } }, m)
    else if p.tmp0 = 1 then some ({ p with done := true }, { c1 with regs := { c1.regs with d := v } }, m)
    else if p.tmp0 = 2 then some ({ p with done := true }, { c1 with regs := { c1.regs with h := v } }, m)
    else if p.tmp0 = 3 then some ({ p with done := true }, { c1 with regs := { c1.regs with a := v } }, m)
    else none
  else some (p, c, m)

/-- push (0xC5, 0xD5, 0xE5, 0xF5): high byte in mcycle 3, low byte in
mcycle 4 (F is masked with 0xF0 for AF). -/
def push : Step := fun p c m =>
  if p.mcycle = 1 then
    let opcode := bread m (pcm1 c.regs.pc)
    some ({ p with tmp0 := (opcode &&& 48) >>> 4 }, c, m)
  else if p.mcycle = 2 then
    some (p, c, m)
  else if p.mcycle = 3 then
    let v :=
      if p.tmp0 = 0 then some c.regs.b
      else if p.tmp0 = 1 then some c.regs.d
      else if p.tmp0 = 2 then some c.regs.h
      else if p.tmp0 = 3 then some c.regs.a
      else none
    match v with
    | none => none
    | some v =>
      let (c, m) := c.stack_push m v
      some (p, c, m)
  else if p.mcycle = 4 then
    let v :=
      if p.tmp0 = 0 then some c.regs.c
      else if p.tmp0 = 1 then some c.regs.e
      else if p.tmp0 = 2 then some c.regs.l
      else if p.tmp0 = 3 then some (c.regs.f &&& 240)
      else none
    match v with
    | none => none
    | some v =>
      let (c, m) := c.stack_push m v
      some ({ p with done := true }, c, m)
  else some (p, c, m)

/-- call_cond (0xC4, 0xCC, 0xD4, 0xDC): the condition is read in mcycle 3
from the opcode at pc - 3. -/
def call_cond : Step := fun p c m =>
  if p.mcycle = 2 then
    let (v, c) := c.fetch m
    some ({ p with tmp0 := v }, c, m)
  else if p.mcycle = 3 then
    let (v, c) := c.fetch m
    let p := { p with tmp1 := v }
    let opcode := bread m ((c.regs.pc + 65533) % 65536)
    match ccSel c.regs.f ((opcode &&& 56) >>> 3) with
    | none => none
    | some cond =>
      if !cond then some ({ p with done := true }, c, m)
      else some (p, c, m)
  else if p.mcycle = 4 then
    some (p, c, m)
  else if p.mcycle = 5 then
    let (c, m) := c.stack_push m c.regs.pchi
    some (p, c, m)
  else if p.mcycle = 6 then
    let (c, m) := c.stack_push m c.regs.pclo
    some ({ p with done := true },
          { c with regs := (c.regs.set_pclo p.tmp0).set_pchi p.tmp1 }, m)
  else some (p, c, m)

/-- call_u16 (0xCD). -/
def call_u16 : Step := fun p c m =>
  if p.mcycle = 2 then
    let (v, c) := c.fetch m
    some ({ p with tmp0 := v }, c, m)
  else if p.mcycle = 3 then
    let (v, c) := c.fetch m
    some ({ p with tmp1 := v }, c, m)
  else if p.mcycle = 4 then
    some (p, c, m)
  else if p.mcycle = 5 then
    let (c, m) := c.stack_push m c.regs.pchi
    some (p, c, m)
  else if p.mcycle = 6 then
    let (c, m) := c.stack_push m c.regs.pclo
    some ({ p with done := true },
          { c with regs := (c.regs.set_pclo p.tmp0).set_pchi p.tmp1 }, m)
  else some (p, c, m)

/-- ret (0xC9). -/
def ret : Step := fun p c m =>
  if p.mcycle = 2 then
    let (v, c) := c.stack_pop m
    some ({ p with tmp0 := v }, c, m)
  else if p.mcycle = 3 then
    let (v, c) := c.stack_pop m
    some ({ p with tmp1 := v }, c, m)
  else if p.mcycle = 4 then
    some ({ p with done := true },
          { c with regs := (c.regs.set_pclo p.tmp0).set_pchi p.tmp1 }, m)
  else some (p, c, m)

/-- ret_cond (0xC0, 0xC8, 0xD0, 0xD8). -/
def ret_cond : Step := fun p c m =>
  if p.mcycle = 2 then
    let opcode := bread m (pcm1 c.regs.pc)
    match ccSel c.regs.f ((opcode &&& 56) >>> 3) with
    | none => none
    | some cond =>
      if !cond then some ({ p with done := true }, c, m)
      else some (p, c, m)
  else if p.mcycle = 3 then
    let (v, c) := c.stack_pop m
    some ({ p with tmp0 := v }, c, m)
  else if p.mcycle = 4 then
    let (v, c) := c.stack_pop m
    some ({ p with tmp1 := v }, c, m)
  else if p.mcycle = 5 then
    some ({ p with done := true },
          { c with regs := (c.regs.set_pclo p.tmp0).set_pchi p.tmp1 }, m)
  else some (p, c, m)

/-- add_hlrp (0x09, 0x19, 0x29, 0x39): low byte and flags in mcycle 1, high
byte in mcycle 2. -/
def add_hlrp : Step := fun p c m =>
  if p.mcycle = 1 then
    let opcode := bread m (pcm1 c.regs.pc)
    match rp16 c.regs ((opcode &&& 48) >>> 4) with
    | none => none
    | some val =>
      let (result, _, _, half, carry) := alu_add_u16 c.regs.hl val
      let f := fset (fset (fset c.regs.f maskN false) maskH half) maskC carry
      some ({ p with tmp0 := (result >>> 8) % 256 },
            { c with regs := { c.regs with l := result % 256, f := f } }, m)
  else if p.mcycle = 2 then
    some ({ p with done := true }, { c with regs := { c.regs with h := p.tmp0 } }, m)
  else some (p, c, m)

/-- ld_sphl (0xF9). -/
def ld_sphl : Step := fun p c m =>
  if p.mcycle = 2 then
    some ({ p with done := true }, { c with regs := { c.regs with sp := c.regs.hl } }, m)
  else some (p, c, m)

/-- ld_rpu16 (0x01, 0x11, 0x21, 0x31): low immediate in mcycle 2, high in 3. -/
def ld_rpu16 : Step := fun p c m =>
  if p.mcycle = 1 then
    let opcode := bread m (pcm1 c.regs.pc)
    some ({ p with tmp0 := (opcode &&& 48) >>> 4 }, c, m)
  else if p.mcycle = 2 then
    let (v, c1) := c.fetch m
    if p.tmp0 = 0 then some (p, { c1 with regs := { c1.regs with c := v } }, m)
    else if p.tmp0 = 1 then some (p, { c1 with regs := { c1.regs with e := v } }, m)
    else if p.tmp0 = 2 then some (p, { c1 with regs := { c1.regs with l := v } }, m)
    else if p.tmp0 = 3 then some (p, { c1 with regs := c1.regs.set_splo v }, m)
    else none
  else if p.mcycle = 3 then
    let (v, c1) := c.fetch m
    if p.tmp0 = 0 then some ({ p with done := true }, { c1 with regs := { c1.regs with b := v } }, m)
    else if p.tmp0 = 1 then some ({ p with done := true }, { c1 with regs := { c1.regs with d := v } }, m)
    else if p.tmp0 = 2 then some ({ p with done := true }, { c1 with regs := { c1.regs with h := v } }, m)
    else if p.tmp0 = 3 then some ({ p with done := true }, { c1 with regs := c1.regs.set_sphi v }, m)
    else none
  else some (p, c, m)

/-- ld_toio_c (0xE2). -/
def ld_toio_c : Step := fun p c m =>
  if p.mcycle = 2 then
    some ({ p with done := true }, c, bwrite m (65280 + c.regs.c) c.regs.a)
  else some (p, c, m)

/-- ld_fromio_c (0xF2). -/
def ld_fromio_c : Step := fun p c m =>
  if p.mcycle = 2 then
    let v := bread m (65280 + c.regs.c)
    some ({ p with done := true }, { c with regs := { c.regs with a := v } }, m)
  else some (p, c, m)

/-- ld_toio_u8 (0xE0). -/
def ld_toio_u8 : Step := fun p c m =>
  if p.mcycle = 2 then
    let (v, c) := c.fetch m
    some ({ p with tmp0 := v }, c, m)
  else if p.mcycle = 3 then
    some ({ p with done := true }, c, bwrite m (65280 + p.tmp0) c.regs.a)
  else some (p, c, m)

/-- ld_fromio_u8 (0xF0). -/
def ld_fromio_u8 : Step := fun p c m =>
  if p.mcycle = 2 then
    let (v, c) := c.fetch m
    some ({ p with tmp0 := v }, c, m)
  else if p.mcycle = 3 then
    let v := bread m (65280 + p.tmp0)
    some ({ p with done := true }, { c with regs := { c.regs with a := v } }, m)
  else some (p, c, m)

end GB

namespace GB

/-- The rotation table rot of the CB rot procedure, producing (carry-out,
result) from the group index y, the current carry flag bit (0 or 1) and the
operand byte.  The source repeats this match verbatim in the register arm
(mcycle 2) and the (HL) arm (mcycle 4) of rot.  NOTE two source quirks kept
here: the SWAP arm (y = 6) passes the OLD carry bit through as carry-out
instead of clearing it, and its result is (val >> 4) | (val & 0xF0), which
keeps the high nibble in place rather than swapping nibbles. -/
def rotOp (y carry val : Nat) : Option (Nat × Nat) :=
  if y = 0 then some (val &&& 128, rotl8 val)
  else if y = 1 then some (val &&& 1, rotr8 val)
  else if y = 2 then some (val &&& 128, ((val <<< 1) % 256) ||| carry)
  else if y = 3 then some (val &&& 1, (val >>> 1) ||| (carry <<< 7))
  else if y = 4 then some (val &&& 128, (val <<< 1) % 256)
  else if y = 5 then some (val &&& 1, (val >>> 1) ||| (val &&& 128))
  else if y = 6 then some (carry, (val >>> 4) ||| (val &&& 240))
  else if y = 7 then some (val &&& 1, val >>> 1)
  else none

/-- rot (CB x=0): register operand in mcycle 2; a (HL) operand reads the
byte in mcycle 3 and, in mcycle 4, computes the flags from the rotated
result but writes the ORIGINAL byte (val, not result) back to (HL). -/
def rot : Step := fun p c m =>
  if p.mcycle = 2 then
    let opcode := bread m (pcm1 c.regs.pc)
    let y := (opcode &&& 56) >>> 3
    let z := opcode &&& 7
    let p := { p with tmp0 := y }
    if z = 6 then some (p, c, m)
    else
      let carry := (fget c.regs.f maskC).toNat
      match rotOp y carry (rsel c.regs z) with
      | none => none
      | some (carry, result) =>
        let f := fset (fset 0 maskZ (result == 0)) maskC (carry != 0)
        some ({ p with done := true },
              { c with regs := { rstore c.regs z result with f := f } }, m)
  else if p.mcycle = 3 then
    some ({ p with tmp1 := bread m c.regs.hl }, c, m)
  else if p.mcycle = 4 then
    let val := p.tmp1
    let carry := (fget c.regs.f maskC).toNat
    match rotOp p.tmp0 carry val with
    | none => none
    | some (carry, result) =>
      let f := fset (fset 0 maskZ (result == 0)) maskC (carry != 0)
      some ({ p with done := true }, { c with regs := { c.regs with f := f } },
            bwrite m c.regs.hl val)
  else some (p, c, m)

/-- bit (CB x=1): Z from the tested bit, N = 0, H = 1, C preserved. -/
def bit : Step := fun p c m =>
  if p.mcycle = 2 then
    let opcode := bread m (pcm1 c.regs.pc)
    let y := (opcode &&& 56) >>> 3
    let z := opcode &&& 7
    let p := { p with tmp0 := y }
    if z = 6 then some (p, c, m)
    else
      let val := rsel c.regs z &&& (1 <<< y)
      let f := fset (fset (fset c.regs.f maskZ (val == 0)) maskN false) maskH true
      some ({ p with done := true }, { c with regs := { c.regs with f := f } }, m)
  else if p.mcycle = 3 then
    let val := bread m c.regs.hl &&& (1 <<< p.tmp0)
    let f := fset (fset (fset c.regs.f maskZ (val == 0)) maskN false) maskH true
    some ({ p with done := true }, { c with regs := { c.regs with f := f } }, m)
  else some (p, c, m)

/-- res (CB x=2): clear bit y; flags preserved. -/
def res : Step := fun p c m =>
  if p.mcycle = 2 then
    let opcode := bread m (pcm1 c.regs.pc)
    let y := (opcode &&& 56) >>> 3
    let z := opcode &&& 7
    let p := { p with tmp0 := y }
    if z = 6 then some (p, c, m)
    else
      let r := rstore c.regs z (rsel c.regs z &&& ((1 <<< y) ^^^ 255))
      some ({ p with done := true }, { c with regs := r }, m)
  else if p.mcycle = 3 then
    some ({ p with tmp1 := bread m c.regs.hl }, c, m)
  else if p.mcycle = 4 then
    some ({ p with done := true }, c,
          bwrite m c.regs.hl (p.tmp1 &&& ((1 <<< p.tmp0) ^^^ 255)))
  else some (p, c, m)

/-- set (CB x=3): set bit y; flags preserved. -/
def set : Step := fun p c m =>
  if p.mcycle = 2 then
    let opcode := bread m (pcm1 c.regs.pc)
    let y := (opcode &&& 56) >>> 3
    let z := opcode &&& 7
    let p := { p with tmp0 := y }
    if z = 6 then some (p, c, m)
    else
      let r := rstore c.regs z (rsel c.regs z ||| (1 <<< y))
      some ({ p with done := true }, { c with regs := r }, m)
  else if p.mcycle = 3 then
    some ({ p with tmp1 := bread m c.regs.hl }, c, m)
  else if p.mcycle = 4 then
    some ({ p with done := true }, c, bwrite m c.regs.hl (p.tmp1 ||| (1 <<< p.tmp0)))
  else some (p, c, m)

/-- Dispatch from the stored tag to the step function (the function pointer
of the Rust procedure record). -/
def stepOf (k : ProcKind) : Step :=
  match k with
  | .nop => nop | .stop => stop | .ld_u16sp => ld_u16sp | .ld_u16a => ld_u16a
  | .ld_au16 => ld_au16 | .jr_d => jr_d | .jr_cond => jr_cond | .jp_u16 => jp_u16
  | .jp_hl => jp_hl | .di => di | .ei => ei | .inc_r => inc_r | .dec_r => dec_r
  | .inc_rp => inc_rp | .dec_rp => dec_rp | .add_ar => add_ar | .sub_ar => sub_ar
  | .and_ar => and_ar | .xor_ar => xor_ar | .or_ar => or_ar | .cp_ar => cp_ar
  | .ld_ru8 => ld_ru8 | .ld_rr => ld_rr | .rlca => rlca | .rrca => rrca
  | .rla => rla | .rra => rra | .daa => daa | .cpl => cpl | .scf => scf
  | .ccf => ccf | .add_au8 => add_au8 | .adc_au8 => adc_au8 | .sub_au8 => sub_au8
  | .and_au8 => and_au8 | .xor_au8 => xor_au8 | .or_au8 => or_au8
  | .cp_au8 => cp_au8 | .ld_toindirect => ld_toindirect
  | .ld_fromindirect => ld_fromindirect | .pop => pop | .push => push
  | .call_cond => call_cond | .call_u16 => call_u16 | .ret => ret
  | .ret_cond => ret_cond | .add_hlrp => add_hlrp | .ld_sphl => ld_sphl
  | .ld_rpu16 => ld_rpu16 | .ld_toio_c => ld_toio_c | .ld_fromio_c => ld_fromio_c
  | .ld_toio_u8 => ld_toio_u8 | .ld_fromio_u8 => ld_fromio_u8 | .rot => rot
  | .bit => bit | .res => res | .set => set

/-- InstructionProcedure::step: run the step function once, then increment
the M-cycle index. -/
def Proc.step (p : Proc) (c : Cpu) (m : Mem) : Option (Proc × Cpu × Mem) :=
  (stepOf p.func p c m).map fun r => ({ r.1 with mcycle := r.1.mcycle + 1 }, r.2)

/-- The main decode table of Cpu::tcycle (everything except the 0xCB arm,
which performs a second fetch and is handled in decode below).  Arms that
panic in the source (removed opcodes, todo arms such as ADC/SBC A,r, JP cc,
RST, HALT, ADD SP and LD HL SP+d, and the unimplemented 0xDD / 0xED / 0xFD
prefixes) are none. -/
def selectMain (opcode : Nat) : Option ProcKind :=
  if opcode = 0xDD ∨ opcode = 0xFD then none
  else if opcode = 0xED then none
  else
    let x := (opcode &&& 192) >>> 6
    let y := (opcode &&& 56) >>> 3
    let z := opcode &&& 7
    let p := y >>> 1
    let q := y &&& 1
    if x = 0 then
      if z = 0 then
        if y = 0 then some .nop
        else if y = 1 then some .ld_u16sp
        else if y = 2 then some .stop
        else if y = 3 then some .jr_d
        else some .jr_cond
      else if z = 1 then (if q = 0 then some .ld_rpu16 else some .add_hlrp)
      else if z = 2 then (if q = 0 then some .ld_toindirect else some .ld_fromindirect)
      else if z = 3 then (if q = 0 then some .inc_rp else some .dec_rp)
      else if z = 4 then some .inc_r
      else if z = 5 then some .dec_r
      else if z = 6 then some .ld_ru8
      else
        if y = 0 then some .rlca else if y = 1 then some .rrca
        else if y = 2 then some .rla else if y = 3 then some .rra
        else if y = 4 then some .daa else if y = 5 then some .cpl
        else if y = 6 then some .scf else some .ccf
    else if x = 1 then
      if y = 6 ∧ z = 6 then none else some .ld_rr
    else if x = 2 then
      if y = 0 then some .add_ar
      else if y = 2 then some .sub_ar
      else if y = 4 then some .and_ar
      else if y = 5 then some .xor_ar
      else if y = 6 then some .or_ar
      else if y = 7 then some .cp_ar
      else none
    else
      if z = 0 then
        if y ≤ 3 then some .ret_cond
        else if y = 4 then some .ld_toio_u8
        else if y = 6 then some .ld_fromio_u8
        else none
      else if z = 1 then
        if q = 0 then some .pop
        else if p = 0 then some .ret
        else if p = 1 then none
        else if p = 2 then some .jp_hl
        else some .ld_sphl
      else if z = 2 then
        if y = 4 then some .ld_toio_c
        else if y = 5 then some .ld_u16a
        else if y = 6 then some .ld_fromio_c
        else if y = 7 then some .ld_au16
        else none
      else if z = 3 then
        if y = 0 then some .jp_u16
        else if y = 6 then some .di
        else if y = 7 then some .ei
        else none
      else if z = 4 then
        if y ≤ 3 then some .call_cond else none
      else if z = 5 then
        if q = 0 then some .push
        else if p = 0 then some .call_u16
        else none
      else if z = 6 then
        if y = 0 then some .add_au8
        else if y = 1 then some .adc_au8
        else if y = 2 then some .sub_au8
        else if y = 4 then some .and_au8
        else if y = 5 then some .xor_au8
        else if y = 6 then some .or_au8
        else if y = 7 then some .cp_au8
        else none
      else none

/-- The CB decode table: x selects rot, bit, res or set. -/
def selectCB (opcode : Nat) : Option ProcKind :=
  let x := (opcode &&& 192) >>> 6
  if x = 0 then some .rot
  else if x = 1 then some .bit
  else if x = 2 then some .res
  else some .set

/-- The IME-enable latch advance performed at a decode boundary. -/
def imeAdvance (c : Cpu) : Cpu :=
  if c.en_ime.1 then
    if c.en_ime.2 + 1 = 2 then { c with en_ime := (false, 0), ime := true }
    else { c with en_ime := (true, c.en_ime.2 + 1) }
  else c

/-- Opcode fetch and decode: fetch one byte, and for 0xCB fetch the real
opcode in the same M-cycle (a source quirk noted in its comments); the
procedure is installed with M-cycle index 1. -/
def decode (c : Cpu) (m : Mem) : Option (Cpu × Proc) :=
  let (opcode, c1) := c.fetch m
  if opcode = 0xCB then
    let (op2, c2) := c1.fetch m
    (selectCB op2).map fun k => (c2, Proc.new k)
  else
    (selectMain opcode).map fun k => (c1, Proc.new k)

/-- Cpu::tcycle: on an M-cycle boundary (tcount = 0), decode when no
procedure is in flight (advancing the IME latch first), then step the
procedure once and drop it when done; always advance tcount modulo 4. -/
def tcycle (c : Cpu) (m : Mem) : Option (Cpu × Mem) :=
  let go : Option (Cpu × Mem) :=
    if c.tcount = 0 then
      let work : Option (Cpu × Proc × Mem) :=
        match c.procedure with
        | some p => some (c, p, m)
        | none =>
          let c := imeAdvance c
          match decode c m with
          | none => none
          | some (c1, p) => some ({ c1 with procedure := some p }, p, m)
      match work with
      | none => none
      | some (c1, p, m1) =>
        match p.step c1 m1 with
        | none => none
        | some (p2, c2, m2) =>
          if p2.done then
            some ({ c2 with procedure := none, instr_count := c2.instr_count + 1 }, m2)
          else
            some ({ c2 with procedure := some p2 }, m2)
    else some (c, m)
  go.map fun r => ({ r.1 with tcount := if r.1.tcount + 1 = 4 then 0 else r.1.tcount + 1 }, r.2)

/-- Iterate tcycle. -/
def runT : Nat → Cpu × Mem → Option (Cpu × Mem)
  | 0, s => some s
  | n + 1, s =>
    match tcycle s.1 s.2 with
    | none => none
    | some s1 => runT n s1

/-- Construct the mode initial CPU and run n T-cycles against the store m0. -/
def boot (mode : SystemMode) (m0 : Mem) (n : Nat) : Option (Cpu × Mem) :=
  (Cpu.new mode).bind fun c0 => runT n (c0, m0)

end GB

namespace GB

/-- Point update of a two-argument table (a WRAM bank array cell). -/
def upd2 (f : Nat → Nat → Nat) (x y v : Nat) : Nat → Nat → Nat :=
  fun a b => if a = x ∧ b = y then v else f a b

/-- Point update of a one-argument table. -/
def upd1 (f : Nat → Nat) (x v : Nat) : Nat → Nat :=
  fun a => if a = x then v else f a

/-- struct Memory (memory.rs): 8 WRAM banks of 0x1000 bytes, the WRAM bank
select, the four undocumented registers and HRAM. -/
structure Memory where
  mode : SystemMode
  wram : Nat → Nat → Nat
  wbank : Nat
  undoc_regs : Nat → Nat
  hram : Nat → Nat

/-- Memory::new. -/
def Memory.new (mode : SystemMode) : Memory :=
  { mode := mode, wram := fun _ _ => 0, wbank := 0,
    undoc_regs := fun _ => 0, hram := fun _ => 0 }

/-- The non-echo arms of Memory::read.  The undocumented registers 0xFF72,
0xFF73 and 0xFF75 are guarded by mode == GameboyColorGBC and fall through to
the unimplemented panic otherwise; only 0xFF74 has an unguarded arm
returning 0xFF. -/
def memReadNoEcho (s : Memory) (addr : Nat) : Option Nat :=
  if 0xC000 ≤ addr ∧ addr ≤ 0xCFFF then some (s.wram 0 (addr &&& 0x0FFF))
  else if 0xD000 ≤ addr ∧ addr ≤ 0xDFFF then some (s.wram (max s.wbank 1) (addr &&& 0x0FFF))
  else if addr = 0xFF70 then some (s.wbank &&& 7)
  else if addr = 0xFF72 ∧ s.mode = SystemMode.GameboyColorGBC then some (s.undoc_regs 0)
  else if addr = 0xFF73 ∧ s.mode = SystemMode.GameboyColorGBC then some (s.undoc_regs 1)
  else if addr = 0xFF74 ∧ s.mode = SystemMode.GameboyColorGBC then some (s.undoc_regs 2)
  else if addr = 0xFF74 then some 0xFF
  else if addr = 0xFF75 ∧ s.mode = SystemMode.GameboyColorGBC then
    some (s.undoc_regs 3 &&& 0b01110000)
  else if 0xFF80 ≤ addr ∧ addr ≤ 0xFFFE then some (s.hram (addr &&& 0x7F))
  else none

/-- Memory::read with the echo arm (0xE000-0xFDFF recurses once at
addr - 0x2000, which always lands in the WRAM arms). -/
def memRead (s : Memory) (addr : Nat) : Option Nat :=
  if 0xE000 ≤ addr ∧ addr ≤ 0xFDFF then memReadNoEcho s (addr - 0x2000)
  else memReadNoEcho s addr

/-- The match arms of Memory::write (without the echo arm). -/
def memWriteArms (s : Memory) (addr data : Nat) : Option Memory :=
  if 0xC000 ≤ addr ∧ addr ≤ 0xCFFF then
    some { s with wram := upd2 s.wram 0 (addr &&& 0x0FFF) data }
  else if 0xD000 ≤ addr ∧ addr ≤ 0xDFFF then
    some { s with wram := upd2 s.wram (max s.wbank 1) (addr &&& 0x0FFF) data }
  else if addr = 0xFF70 then some { s with wbank := data &&& 7 }
  else if addr = 0xFF72 ∧ s.mode = SystemMode.GameboyColorGBC then
    some { s with undoc_regs := upd1 s.undoc_regs 0 data }
  else if addr = 0xFF73 ∧ s.mode = SystemMode.GameboyColorGBC then
    some { s with undoc_regs := upd1 s.undoc_regs 1 data }
  else if addr = 0xFF74 ∧ s.mode = SystemMode.GameboyColorGBC then
    some { s with undoc_regs := upd1 s.undoc_regs 2 data }
  else if addr = 0xFF75 ∧ s.mode = SystemMode.GameboyColorGBC then
    some { s with undoc_regs := upd1 s.undoc_regs 3 (data &&& 0b01110000) }
  else if 0xFF80 ≤ addr ∧ addr ≤ 0xFFFE then
    some { s with hram := upd1 s.hram (addr &&& 0x7F) data }
  else none

/-- The debug block at the end of Memory::write: a write of data to 0xDD02
re-reads the address and panics on a mismatch (never taken, the read returns
the stored byte) and then panics when the written data is 0x00.  The info
logging has no state effect. -/
def memWriteCheck (s : Memory) (addr data : Nat) : Option Memory :=
  if addr = 0xDD02 then
    match memRead s addr with
    | none => none
    | some rv => if data ≠ rv then none else if data = 0 then none else some s
  else some s

/-- Memory::write without the echo arm: the match, then the trailing debug
block. -/
def memWriteNoEcho (s : Memory) (addr data : Nat) : Option Memory :=
  (memWriteArms s addr data).bind fun s1 => memWriteCheck s1 addr data

/-- Memory::write: the echo arm (0xE000-0xFDFF) recurses once at
addr - 0x2000 (the recursive call performs its own trailing debug block),
then the outer call runs its own trailing block with the outer address. -/
def memWrite (s : Memory) (addr data : Nat) : Option Memory :=
  if 0xE000 ≤ addr ∧ addr ≤ 0xFDFF then
    (memWriteNoEcho s (addr - 0x2000) data).bind fun s1 => memWriteCheck s1 addr data
  else memWriteNoEcho s addr data

/-- The bus-facing registers of the Cpu (its BusAccessable impl): IF and IE. -/
structure CpuIo where
  interrupt_flags : Nat
  interrupt_enable : Nat

/-- Cpu as BusAccessable, write: 0xFF01 logs, 0xFF02 and 0xFF07 are dropped,
0xFF0F is IF, 0xFFFF is IE, everything else is a todo panic. -/
def cpuIoWrite (s : CpuIo) (addr data : Nat) : Option CpuIo :=
  if addr = 0xFF01 then some s
  else if addr = 0xFF02 then some s
  else if addr = 0xFF07 then some s
  else if addr = 0xFF0F then some { s with interrupt_flags := data }
  else if addr = 0xFFFF then some { s with interrupt_enable := data }
  else none

/-- Cpu as BusAccessable, read: 0xFF0F is a todo panic, 0xFFFF returns IE,
everything else is a todo panic. -/
def cpuIoRead (s : CpuIo) (addr : Nat) : Option Nat :=
  if addr = 0xFF0F then none
  else if addr = 0xFFFF then some s.interrupt_enable
  else none

/-- struct Ppu (ppu.rs), bus-facing state. -/
structure Ppu where
  vram : Nat → Nat
  lcdc : Nat
  stat : Nat
  scy : Nat
  scx : Nat
  ly : Nat
  lyc : Nat
  bgp : Nat
  wy : Nat
  wx : Nat

/-- Ppu::new (ly starts at 0x90). -/
def Ppu.new : Ppu :=
  { vram := fun _ => 0, lcdc := 0, stat := 0, scy := 0, scx := 0,
    ly := 0x90, lyc := 0, bgp := 0, wy := 0, wx := 0 }

/-- Ppu write: VRAM and the LCD registers; 0xFF44 (LY) writes are dropped;
unknown addresses are a todo panic. -/
def ppuWrite (s : Ppu) (addr data : Nat) : Option Ppu :=
  if 0x8000 ≤ addr ∧ addr ≤ 0x9FFF then
    some { s with vram := upd1 s.vram (addr &&& 0x1FFF) data }
  else if addr = 0xFF40 then some { s with lcdc := data }
  else if addr = 0xFF41 then some { s with stat := data }
  else if addr = 0xFF42 then some { s with scy := data }
  else if addr = 0xFF43 then some { s with scx := data }
  else if addr = 0xFF44 then some s
  else if addr = 0xFF45 then some { s with lyc := data }
  else if addr = 0xFF47 then some { s with bgp := data }
  else if addr = 0xFF4A then some { s with wy := data }
  else if addr = 0xFF4B then some { s with wx := data }
  else none

/-- Ppu read. -/
def ppuRead (s : Ppu) (addr : Nat) : Option Nat :=
  if 0x8000 ≤ addr ∧ addr ≤ 0x9FFF then some (s.vram (addr &&& 0x1FFF))
  else if addr = 0xFF40 then some s.lcdc
  else if addr = 0xFF41 then some s.stat
  else if addr = 0xFF42 then some s.scy
  else if addr = 0xFF43 then some s.scx
  else if addr = 0xFF44 then some s.ly
  else if addr = 0xFF45 then some s.lyc
  else if addr = 0xFF47 then some s.bgp
  else if addr = 0xFF4A then some s.wy
  else if addr = 0xFF4B then some s.wx
  else none

/-- Apu write (apu.rs): the first match arm is a wildcard that absorbs every
write. -/
def apuWrite (addr data : Nat) : Option Unit := some ()

/-- Apu read: a todo panic. -/
def apuRead (addr : Nat) : Option Nat := none

/-- Cartridge (cartridge.rs): a flat ROM byte vector. -/
structure Cartridge where
  rom : List Nat

/-- Cartridge write: 0x0000-0x00FF is dropped, everything else is a todo
panic. -/
def cartWrite (s : Cartridge) (addr data : Nat) : Option Cartridge :=
  if addr ≤ 0x00FF then some s else none

/-- Cartridge read: rom byte, 0xFF when out of bounds; above 0x7FFF a todo
panic. -/
def cartRead (s : Cartridge) (addr : Nat) : Option Nat :=
  if addr ≤ 0x7FFF then some (s.rom.getD addr 0xFF) else none

/-- struct Bus (arch.rs): the address decoder state.  The cpu field is
restricted to its bus-facing registers; the full pipeline state of the Cpu
is embedded separately above and never aliased by these claims. -/
structure Bus where
  cpu : CpuIo
  ppu : Ppu
  mem : Memory
  cart : Cartridge
  boot_rom : Nat → Nat
  boot_disabled : Nat

/-- Bus::write: the address decode of arch.rs, arm for arm.  Writes into
0x0000-0x00FF are dropped while the boot ROM is enabled. -/
def busWrite (b : Bus) (addr data : Nat) : Option Bus :=
  if addr ≤ 0x00FF ∧ b.boot_disabled = 0 then some b
  else if addr ≤ 0x7FFF then (cartWrite b.cart addr data).map fun s => { b with cart := s }
  else if addr ≤ 0x9FFF then (ppuWrite b.ppu addr data).map fun s => { b with ppu := s }
  else if addr ≤ 0xBFFF then (cartWrite b.cart addr data).map fun s => { b with cart := s }
  else if addr ≤ 0xFDFF then (memWrite b.mem addr data).map fun s => { b with mem := s }
  else if addr ≤ 0xFEFF then (ppuWrite b.ppu addr data).map fun s => { b with ppu := s }
  else if (0xFF00 ≤ addr ∧ addr ≤ 0xFF02) ∨ (0xFF04 ≤ addr ∧ addr ≤ 0xFF07) then
    (cpuIoWrite b.cpu addr data).map fun s => { b with cpu := s }
  else if addr = 0xFF0F then (cpuIoWrite b.cpu addr data).map fun s => { b with cpu := s }
  else if (0xFF10 ≤ addr ∧ addr ≤ 0xFF26) ∨ (0xFF30 ≤ addr ∧ addr ≤ 0xFF3F) then
    (apuWrite addr data).map fun _ => b
  else if (0xFF40 ≤ addr ∧ addr ≤ 0xFF4B) ∨ addr = 0xFF4F then
    (ppuWrite b.ppu addr data).map fun s => { b with ppu := s }
  else if addr = 0xFF50 then some { b with boot_disabled := data }
  else if (0xFF51 ≤ addr ∧ addr ≤ 0xFF55) ∨ (0xFF68 ≤ addr ∧ addr ≤ 0xFF69) then
    (ppuWrite b.ppu addr data).map fun s => { b with ppu := s }
  else if addr = 0xFF70 then (memWrite b.mem addr data).map fun s => { b with mem := s }
  else if 0xFF72 ≤ addr ∧ addr ≤ 0xFF75 then
    (memWrite b.mem addr data).map fun s => { b with mem := s }
  else if 0xFF76 ≤ addr ∧ addr ≤ 0xFF77 then (apuWrite addr data).map fun _ => b
  else if 0xFF80 ≤ addr ∧ addr ≤ 0xFFFE then
    (memWrite b.mem addr data).map fun s => { b with mem := s }
  else if addr = 0xFFFF then (cpuIoWrite b.cpu addr data).map fun s => { b with cpu := s }
  else none

/-- Bus::read: the address decode of arch.rs, arm for arm.  Reads of
0x0000-0x00FF return the boot bytes while the boot-disable latch is zero.
No read mutates any state, so the result is just the byte. -/
def busRead (b : Bus) (addr : Nat) : Option Nat :=
  if addr ≤ 0x00FF ∧ b.boot_disabled = 0 then some (b.boot_rom addr)
  else if addr ≤ 0x7FFF then cartRead b.cart addr
  else if addr ≤ 0x9FFF then ppuRead b.ppu addr
  else if addr ≤ 0xBFFF then cartRead b.cart addr
  else if addr ≤ 0xFDFF then memRead b.mem addr
  else if addr ≤ 0xFEFF then ppuRead b.ppu addr
  else if (0xFF00 ≤ addr ∧ addr ≤ 0xFF02) ∨ (0xFF04 ≤ addr ∧ addr ≤ 0xFF07) then
    cpuIoRead b.cpu addr
  else if addr = 0xFF0F then cpuIoRead b.cpu addr
  else if (0xFF10 ≤ addr ∧ addr ≤ 0xFF26) ∨ (0xFF30 ≤ addr ∧ addr ≤ 0xFF3F) then
    apuRead addr
  else if (0xFF40 ≤ addr ∧ addr ≤ 0xFF4B) ∨ addr = 0xFF4F then ppuRead b.ppu addr
  else if addr = 0xFF50 then some b.boot_disabled
  else if (0xFF51 ≤ addr ∧ addr ≤ 0xFF55) ∨ (0xFF68 ≤ addr ∧ addr ≤ 0xFF69) then
    ppuRead b.ppu addr
  else if addr = 0xFF70 then memRead b.mem addr
  else if 0xFF72 ≤ addr ∧ addr ≤ 0xFF75 then memRead b.mem addr
  else if 0xFF76 ≤ addr ∧ addr ≤ 0xFF77 then apuRead addr
  else if 0xFF80 ≤ addr ∧ addr ≤ 0xFFFE then memRead b.mem addr
  else if addr = 0xFFFF then cpuIoRead b.cpu addr
  else none

/-- Apply a sequence of bus writes (address, data), propagating panics.
Bus reads never change any state (busRead returns only the byte), so a run
segment is characterised by its writes. -/
def applyWrites (b : Bus) : List (Nat × Nat) → Option Bus
  | [] => some b
  | op :: ops =>
    match busWrite b op.1 op.2 with
    | none => none
    | some b1 => applyWrites b1 ops

end GB

namespace GB

/-- Unfolding lemma: one T-cycle off the front of a run. -/
theorem runT_succ (n : Nat) (s : Cpu × Mem) :
    runT (n + 1) s = (tcycle s.1 s.2).bind (runT n) := by
  cases h : tcycle s.1 s.2 <;> simp [runT, h]

/-- The IME latch advance touches only en_ime and ime. -/
theorem imeAdvance_regs (c : Cpu) : (imeAdvance c).regs = c.regs := by
  unfold imeAdvance; split_ifs <;> rfl

/-- The IME latch advance leaves tcount unchanged. -/
theorem imeAdvance_tcount (c : Cpu) : (imeAdvance c).tcount = c.tcount := by
  unfold imeAdvance; split_ifs <;> rfl

/-- The IME latch advance leaves the procedure slot unchanged. -/
theorem imeAdvance_procedure (c : Cpu) : (imeAdvance c).procedure = c.procedure := by
  unfold imeAdvance; split_ifs <;> rfl

/-- The IME latch advance leaves instr_count unchanged. -/
theorem imeAdvance_instr (c : Cpu) : (imeAdvance c).instr_count = c.instr_count := by
  unfold imeAdvance; split_ifs <;> rfl

/-- The IME latch advance leaves the mode unchanged. -/
theorem imeAdvance_mode (c : Cpu) : (imeAdvance c).mode = c.mode := by
  unfold imeAdvance; split_ifs <;> rfl

/-- Writing back the byte already present leaves the store unchanged. -/
theorem bwrite_self (m : Mem) (a : Nat) : bwrite m a (m a) = m := by
  funext x
  unfold bwrite
  split
  case isTrue hx => rw [hx]
  case isFalse hx => rfl

/-- The rotation table is total on group indices up to 7. -/
theorem rotOp_isSome (y carry val : Nat) (hy : y ≤ 7) :
    ∃ pr, rotOp y carry val = some pr := by
  interval_cases y <;> simp [rotOp]

/-- The invariant on the flag register: byte valued with a zero low nibble. -/
def FInv (f : Nat) : Prop := f < 256 ∧ f % 16 = 0

instance (f : Nat) : Decidable (FInv f) :=
  inferInstanceAs (Decidable (f < 256 ∧ f % 16 = 0))

theorem finv_zero : FInv 0 := by decide

set_option maxRecDepth 4096

/-- Setting or clearing the Zero bit preserves the flag invariant. -/
theorem finvZ (f : Nat) (v : Bool) (h : FInv f) : FInv (fset f maskZ v) := by
  cases v <;>
    exact (by decide : ∀ g < 256, g % 16 = 0 → FInv (fset g maskZ _)) f h.1 h.2

/-- Setting or clearing the Negative bit preserves the flag invariant. -/
theorem finvN (f : Nat) (v : Bool) (h : FInv f) : FInv (fset f maskN v) := by
  cases v <;>
    exact (by decide : ∀ g < 256, g % 16 = 0 → FInv (fset g maskN _)) f h.1 h.2

/-- Setting or clearing the HalfCarry bit preserves the flag invariant. -/
theorem finvH (f : Nat) (v : Bool) (h : FInv f) : FInv (fset f maskH v) := by
  cases v <;>
    exact (by decide : ∀ g < 256, g % 16 = 0 → FInv (fset g maskH _)) f h.1 h.2

/-- Setting or clearing the Carry bit preserves the flag invariant. -/
theorem finvC (f : Nat) (v : Bool) (h : FInv f) : FInv (fset f maskC v) := by
  cases v <;>
    exact (by decide : ∀ g < 256, g % 16 = 0 → FInv (fset g maskC _)) f h.1 h.2

/-- Bus reads are bytes. -/
theorem bread_lt (m : Mem) (a : Nat) : bread m a < 256 :=
  Nat.mod_lt _ (by decide)

/-- A byte masked with 0xF0 satisfies the flag invariant. -/
theorem finv_and240 (x : Nat) (hx : x < 256) : FInv (x &&& 240) :=
  (by decide : ∀ g < 256, FInv (g &&& 240)) x hx

/-- The register table store never touches F. -/
theorem rstore_f (r : Regs) (z v : Nat) : (rstore r z v).f = r.f := by
  unfold rstore
  split_ifs <;> rfl

theorem set_pclo_f (r : Regs) (v : Nat) : (r.set_pclo v).f = r.f := rfl

theorem set_pchi_f (r : Regs) (v : Nat) : (r.set_pchi v).f = r.f := rfl

theorem set_splo_f (r : Regs) (v : Nat) : (r.set_splo v).f = r.f := rfl

theorem set_sphi_f (r : Regs) (v : Nat) : (r.set_sphi v).f = r.f := rfl

theorem set_hl_f (r : Regs) (v : Nat) : (r.set_hl v).f = r.f := rfl

set_option maxHeartbeats 4000000 in
set_option maxRecDepth 16384 in
/-- The nop step function preserves the flag invariant: each write to F goes
through fset on a defined high-nibble bit, clears F, or masks with 0xF0. -/
theorem nop_finv (p : Proc) (c : Cpu) (m : Mem)
    (h : FInv c.regs.f) (r : Proc × Cpu × Mem) (hr : nop p c m = some r) :
    FInv r.2.1.regs.f := by
  simp only [nop, Cpu.fetch, Cpu.stack_push, Cpu.stack_pop,
    alu_add, alu_sub, alu_adc, alu_add_u16] at hr
  repeat' (first | (split_ifs at hr) | (split at hr))
  all_goals
    first
      | exact Option.noConfusion hr
      | (injection hr with hr
         subst hr
         simp only [rstore_f, set_pclo_f, set_pchi_f, set_splo_f, set_sphi_f, set_hl_f]
         repeat first
           | exact h
           | exact finv_zero
           | exact finv_and240 _ (bread_lt _ _)
           | (refine finvZ _ _ ?_)
           | (refine finvN _ _ ?_)
           | (refine finvH _ _ ?_)
           | (refine finvC _ _ ?_))

set_option maxHeartbeats 4000000 in
set_option maxRecDepth 16384 in
/-- The stop step function preserves the flag invariant: each write to F goes
through fset on a defined high-nibble bit, clears F, or masks with 0xF0. -/
theorem stop_finv (p : Proc) (c : Cpu) (m : Mem)
    (h : FInv c.regs.f) (r : Proc × Cpu × Mem) (hr : stop p c m = some r) :
    FInv r.2.1.regs.f := by
  simp only [stop, Cpu.fetch, Cpu.stack_push, Cpu.stack_pop,
    alu_add, alu_sub, alu_adc, alu_add_u16] at hr
  repeat' (first | (split_ifs at hr) | (split at hr))
  all_goals
    first
      | exact Option.noConfusion hr
      | (injection hr with hr
         subst hr
         simp only [rstore_f, set_pclo_f, set_pchi_f, set_splo_f, set_sphi_f, set_hl_f]
         repeat first
           | exact h
           | exact finv_zero
           | exact finv_and240 _ (bread_lt _ _)
           | (refine finvZ _ _ ?_)
           | (refine finvN _ _ ?_)
           | (refine finvH _ _ ?_)
           | (refine finvC _ _ ?_))

set_option maxHeartbeats 4000000 in
set_option maxRecDepth 16384 in
/-- The ld_u16sp step function preserves the flag invariant: each write to F goes
through fset on a defined high-nibble bit, clears F, or masks with 0xF0. -/
theorem ld_u16sp_finv (p : Proc) (c : Cpu) (m : Mem)
    (h : FInv c.regs.f) (r : Proc × Cpu × Mem) (hr : ld_u16sp p c m = some r) :
    FInv r.2.1.regs.f := by
  simp only [ld_u16sp, Cpu.fetch, Cpu.stack_push, Cpu.stack_pop,
    alu_add, alu_sub, alu_adc, alu_add_u16] at hr
  repeat' (first | (split_ifs at hr) | (split at hr))
  all_goals
    first
      | exact Option.noConfusion hr
      | (injection hr with hr
         subst hr
         simp only [rstore_f, set_pclo_f, set_pchi_f, set_splo_f, set_sphi_f, set_hl_f]
         repeat first
           | exact h
           | exact finv_zero
           | exact finv_and240 _ (bread_lt _ _)
           | (refine finvZ _ _ ?_)
           | (refine finvN _ _ ?_)
           | (refine finvH _ _ ?_)
           | (refine finvC _ _ ?_))

set_option maxHeartbeats 4000000 in
set_option maxRecDepth 16384 in
/-- The ld_u16a step function preserves the flag invariant: each write to F goes
through fset on a defined high-nibble bit, clears F, or masks with 0xF0. -/
theorem ld_u16a_finv (p : Proc) (c : Cpu) (m : Mem)
    (h : FInv c.regs.f) (r : Proc × Cpu × Mem) (hr : ld_u16a p c m = some r) :
    FInv r.2.1.regs.f := by
  simp only [ld_u16a, Cpu.fetch, Cpu.stack_push, Cpu.stack_pop,
    alu_add, alu_sub, alu_adc, alu_add_u16] at hr
  repeat' (first | (split_ifs at hr) | (split at hr))
  all_goals
    first
      | exact Option.noConfusion hr
      | (injection hr with hr
         subst hr
         simp only [rstore_f, set_pclo_f, set_pchi_f, set_splo_f, set_sphi_f, set_hl_f]
         repeat first
           | exact h
           | exact finv_zero
           | exact finv_and240 _ (bread_lt _ _)
           | (refine finvZ _ _ ?_)
           | (refine finvN _ _ ?_)
           | (refine finvH _ _ ?_)
           | (refine finvC _ _ ?_))

set_option maxHeartbeats 4000000 in
set_option maxRecDepth 16384 in
/-- The ld_au16 step function preserves the flag invariant: each write to F goes
through fset on a defined high-nibble bit, clears F, or masks with 0xF0. -/
theorem ld_au16_finv (p : Proc) (c : Cpu) (m : Mem)
    (h : FInv c.regs.f) (r : Proc × Cpu × Mem) (hr : ld_au16 p c m = some r) :
    FInv r.2.1.regs.f := by
  simp only [ld_au16, Cpu.fetch, Cpu.stack_push, Cpu.stack_pop,
    alu_add, alu_sub, alu_adc, alu_add_u16] at hr
  repeat' (first | (split_ifs at hr) | (split at hr))
  all_goals
    first
      | exact Option.noConfusion hr
      | (injection hr with hr
         subst hr
         simp only [rstore_f, set_pclo_f, set_pchi_f, set_splo_f, set_sphi_f, set_hl_f]
         repeat first
           | exact h
           | exact finv_zero
           | exact finv_and240 _ (bread_lt _ _)
           | (refine finvZ _ _ ?_)
           | (refine finvN _ _ ?_)
           | (refine finvH _ _ ?_)
           | (refine finvC _ _ ?_))

set_option maxHeartbeats 4000000 in
set_option maxRecDepth 16384 in
/-- The jr_d step function preserves the flag invariant: each write to F goes
through fset on a defined high-nibble bit, clears F, or masks with 0xF0. -/
theorem jr_d_finv (p : Proc) (c : Cpu) (m : Mem)
    (h : FInv c.regs.f) (r : Proc × Cpu × Mem) (hr : jr_d p c m = some r) :
    FInv r.2.1.regs.f := by
  simp only [jr_d, Cpu.fetch, Cpu.stack_push, Cpu.stack_pop,
    alu_add, alu_sub, alu_adc, alu_add_u16] at hr
  repeat' (first | (split_ifs at hr) | (split at hr))
  all_goals
    first
      | exact Option.noConfusion hr
      | (injection hr with hr
         subst hr
         simp only [rstore_f, set_pclo_f, set_pchi_f, set_splo_f, set_sphi_f, set_hl_f]
         repeat first
           | exact h
           | exact finv_zero
           | exact finv_and240 _ (bread_lt _ _)
           | (refine finvZ _ _ ?_)
           | (refine finvN _ _ ?_)
           | (refine finvH _ _ ?_)
           | (refine finvC _ _ ?_))

set_option maxHeartbeats 4000000 in
set_option maxRecDepth 16384 in
/-- The jr_cond step function preserves the flag invariant: each write to F goes
through fset on a defined high-nibble bit, clears F, or masks with 0xF0. -/
theorem jr_cond_finv (p : Proc) (c : Cpu) (m : Mem)
    (h : FInv c.regs.f) (r : Proc × Cpu × Mem) (hr : jr_cond p c m = some r) :
    FInv r.2.1.regs.f := by
  simp only [jr_cond, Cpu.fetch, Cpu.stack_push, Cpu.stack_pop,
    alu_add, alu_sub, alu_adc, alu_add_u16] at hr
  repeat' (first | (split_ifs at hr) | (split at hr))
  all_goals
    first
      | exact Option.noConfusion hr
      | (injection hr with hr
         subst hr
         simp only [rstore_f, set_pclo_f, set_pchi_f, set_splo_f, set_sphi_f, set_hl_f]
         repeat first
           | exact h
           | exact finv_zero
           | exact finv_and240 _ (bread_lt _ _)
           | (refine finvZ _ _ ?_)
           | (refine finvN _ _ ?_)
           | (refine finvH _ _ ?_)
           | (refine finvC _ _ ?_))

set_option maxHeartbeats 4000000 in
set_option maxRecDepth 16384 in
/-- The jp_u16 step function preserves the flag invariant: each write to F goes
through fset on a defined high-nibble bit, clears F, or masks with 0xF0. -/
theorem jp_u16_finv (p : Proc) (c : Cpu) (m : Mem)
    (h : FInv c.regs.f) (r : Proc × Cpu × Mem) (hr : jp_u16 p c m = some r) :
    FInv r.2.1.regs.f := by
  simp only [jp_u16, Cpu.fetch, Cpu.stack_push, Cpu.stack_pop,
    alu_add, alu_sub, alu_adc, alu_add_u16] at hr
  repeat' (first | (split_ifs at hr) | (split at hr))
  all_goals
    first
      | exact Option.noConfusion hr
      | (injection hr with hr
         subst hr
         simp only [rstore_f, set_pclo_f, set_pchi_f, set_splo_f, set_sphi_f, set_hl_f]
         repeat first
           | exact h
           | exact finv_zero
           | exact finv_and240 _ (bread_lt _ _)
           | (refine finvZ _ _ ?_)
           | (refine finvN _ _ ?_)
           | (refine finvH _ _ ?_)
           | (refine finvC _ _ ?_))

set_option maxHeartbeats 4000000 in
set_option maxRecDepth 16384 in
/-- The jp_hl step function preserves the flag invariant: each write to F goes
through fset on a defined high-nibble bit, clears F, or masks with 0xF0. -/
theorem jp_hl_finv (p : Proc) (c : Cpu) (m : Mem)
    (h : FInv c.regs.f) (r : Proc × Cpu × Mem) (hr : jp_hl p c m = some r) :
    FInv r.2.1.regs.f := by
  simp only [jp_hl, Cpu.fetch, Cpu.stack_push, Cpu.stack_pop,
    alu_add, alu_sub, alu_adc, alu_add_u16] at hr
  repeat' (first | (split_ifs at hr) | (split at hr))
  all_goals
    first
      | exact Option.noConfusion hr
      | (injection hr with hr
         subst hr
         simp only [rstore_f, set_pclo_f, set_pchi_f, set_splo_f, set_sphi_f, set_hl_f]
         repeat first
           | exact h
           | exact finv_zero
           | exact finv_and240 _ (bread_lt _ _)
           | (refine finvZ _ _ ?_)
           | (refine finvN _ _ ?_)
           | (refine finvH _ _ ?_)
           | (refine finvC _ _ ?_))

set_option maxHeartbeats 4000000 in
set_option maxRecDepth 16384 in
/-- The di step function preserves the flag invariant: each write to F goes
through fset on a defined high-nibble bit, clears F, or masks with 0xF0. -/
theorem di_finv (p : Proc) (c : Cpu) (m : Mem)
    (h : FInv c.regs.f) (r : Proc × Cpu × Mem) (hr : di p c m = some r) :
    FInv r.2.1.regs.f := by
  simp only [di, Cpu.fetch, Cpu.stack_push, Cpu.stack_pop,
    alu_add, alu_sub, alu_adc, alu_add_u16] at hr
  repeat' (first | (split_ifs at hr) | (split at hr))
  all_goals
    first
      | exact Option.noConfusion hr
      | (injection hr with hr
         subst hr
         simp only [rstore_f, set_pclo_f, set_pchi_f, set_splo_f, set_sphi_f, set_hl_f]
         repeat first
           | exact h
           | exact finv_zero
           | exact finv_and240 _ (bread_lt _ _)
           | (refine finvZ _ _ ?_)
           | (refine finvN _ _ ?_)
           | (refine finvH _ _ ?_)
           | (refine finvC _ _ ?_))

set_option maxHeartbeats 4000000 in
set_option maxRecDepth 16384 in
/-- The ei step function preserves the flag invariant: each write to F goes
through fset on a defined high-nibble bit, clears F, or masks with 0xF0. -/
theorem ei_finv (p : Proc) (c : Cpu) (m : Mem)
    (h : FInv c.regs.f) (r : Proc × Cpu × Mem) (hr : ei p c m = some r) :
    FInv r.2.1.regs.f := by
  simp only [ei, Cpu.fetch, Cpu.stack_push, Cpu.stack_pop,
    alu_add, alu_sub, alu_adc, alu_add_u16] at hr
  repeat' (first | (split_ifs at hr) | (split at hr))
  all_goals
    first
      | exact Option.noConfusion hr
      | (injection hr with hr
         subst hr
         simp only [rstore_f, set_pclo_f, set_pchi_f, set_splo_f, set_sphi_f, set_hl_f]
         repeat first
           | exact h
           | exact finv_zero
           | exact finv_and240 _ (bread_lt _ _)
           | (refine finvZ _ _ ?_)
           | (refine finvN _ _ ?_)
           | (refine finvH _ _ ?_)
           | (refine finvC _ _ ?_))

set_option maxHeartbeats 4000000 in
set_option maxRecDepth 16384 in
/-- The inc_r step function preserves the flag invariant: each write to F goes
through fset on a defined high-nibble bit, clears F, or masks with 0xF0. -/
theorem inc_r_finv (p : Proc) (c : Cpu) (m : Mem)
    (h : FInv c.regs.f) (r : Proc × Cpu × Mem) (hr : inc_r p c m = some r) :
    FInv r.2.1.regs.f := by
  simp only [inc_r, Cpu.fetch, Cpu.stack_push, Cpu.stack_pop,
    alu_add, alu_sub, alu_adc, alu_add_u16] at hr
  repeat' (first | (split_ifs at hr) | (split at hr))
  all_goals
    first
      | exact Option.noConfusion hr
      | (injection hr with hr
         subst hr
         simp only [rstore_f, set_pclo_f, set_pchi_f, set_splo_f, set_sphi_f, set_hl_f]
         repeat first
           | exact h
           | exact finv_zero
           | exact finv_and240 _ (bread_lt _ _)
           | (refine finvZ _ _ ?_)
           | (refine finvN _ _ ?_)
           | (refine finvH _ _ ?_)
           | (refine finvC _ _ ?_))

set_option maxHeartbeats 4000000 in
set_option maxRecDepth 16384 in
/-- The dec_r step function preserves the flag invariant: each write to F goes
through fset on a defined high-nibble bit, clears F, or masks with 0xF0. -/
theorem dec_r_finv (p : Proc) (c : Cpu) (m : Mem)
    (h : FInv c.regs.f) (r : Proc × Cpu × Mem) (hr : dec_r p c m = some r) :
    FInv r.2.1.regs.f := by
  simp only [dec_r, Cpu.fetch, Cpu.stack_push, Cpu.stack_pop,
    alu_add, alu_sub, alu_adc, alu_add_u16] at hr
  repeat' (first | (split_ifs at hr) | (split at hr))
  all_goals
    first
      | exact Option.noConfusion hr
      | (injection hr with hr
         subst hr
         simp only [rstore_f, set_pclo_f, set_pchi_f, set_splo_f, set_sphi_f, set_hl_f]
         repeat first
           | exact h
           | exact finv_zero
           | exact finv_and240 _ (bread_lt _ _)
           | (refine finvZ _ _ ?_)
           | (refine finvN _ _ ?_)
           | (refine finvH _ _ ?_)
           | (refine finvC _ _ ?_))

set_option maxHeartbeats 4000000 in
set_option maxRecDepth 16384 in
/-- The inc_rp step function preserves the flag invariant: each write to F goes
through fset on a defined high-nibble bit, clears F, or masks with 0xF0. -/
theorem inc_rp_finv (p : Proc) (c : Cpu) (m : Mem)
    (h : FInv c.regs.f) (r : Proc × Cpu × Mem) (hr : inc_rp p c m = some r) :
    FInv r.2.1.regs.f := by
  simp only [inc_rp, Cpu.fetch, Cpu.stack_push, Cpu.stack_pop,
    alu_add, alu_sub, alu_adc, alu_add_u16] at hr
  repeat' (first | (split_ifs at hr) | (split at hr))
  all_goals
    first
      | exact Option.noConfusion hr
      | (injection hr with hr
         subst hr
         simp only [rstore_f, set_pclo_f, set_pchi_f, set_splo_f, set_sphi_f, set_hl_f]
         repeat first
           | exact h
           | exact finv_zero
           | exact finv_and240 _ (bread_lt _ _)
           | (refine finvZ _ _ ?_)
           | (refine finvN _ _ ?_)
           | (refine finvH _ _ ?_)
           | (refine finvC _ _ ?_))

set_option maxHeartbeats 4000000 in
set_option maxRecDepth 16384 in
/-- The dec_rp step function preserves the flag invariant: each write to F goes
through fset on a defined high-nibble bit, clears F, or masks with 0xF0. -/
theorem dec_rp_finv (p : Proc) (c : Cpu) (m : Mem)
    (h : FInv c.regs.f) (r : Proc × Cpu × Mem) (hr : dec_rp p c m = some r) :
    FInv r.2.1.regs.f := by
  simp only [dec_rp, Cpu.fetch, Cpu.stack_push, Cpu.stack_pop,
    alu_add, alu_sub, alu_adc, alu_add_u16] at hr
  repeat' (first | (split_ifs at hr) | (split at hr))
  all_goals
    first
      | exact Option.noConfusion hr
      | (injection hr with hr
         subst hr
         simp only [rstore_f, set_pclo_f, set_pchi_f, set_splo_f, set_sphi_f, set_hl_f]
         repeat first
           | exact h
           | exact finv_zero
           | exact finv_and240 _ (bread_lt _ _)
           | (refine finvZ _ _ ?_)
           | (refine finvN _ _ ?_)
           | (refine finvH _ _ ?_)
           | (refine finvC _ _ ?_))

set_option maxHeartbeats 4000000 in
set_option maxRecDepth 16384 in
/-- The add_ar step function preserves the flag invariant: each write to F goes
through fset on a defined high-nibble bit, clears F, or masks with 0xF0. -/
theorem add_ar_finv (p : Proc) (c : Cpu) (m : Mem)
    (h : FInv c.regs.f) (r : Proc × Cpu × Mem) (hr : add_ar p c m = some r) :
    FInv r.2.1.regs.f := by
  simp only [add_ar, Cpu.fetch, Cpu.stack_push, Cpu.stack_pop,
    alu_add, alu_sub, alu_adc, alu_add_u16] at hr
  repeat' (first | (split_ifs at hr) | (split at hr))
  all_goals
    first
      | exact Option.noConfusion hr
      | (injection hr with hr
         subst hr
         simp only [rstore_f, set_pclo_f, set_pchi_f, set_splo_f, set_sphi_f, set_hl_f]
         repeat first
           | exact h
           | exact finv_zero
           | exact finv_and240 _ (bread_lt _ _)
           | (refine finvZ _ _ ?_)
           | (refine finvN _ _ ?_)
           | (refine finvH _ _ ?_)
           | (refine finvC _ _ ?_))

set_option maxHeartbeats 4000000 in
set_option maxRecDepth 16384 in
/-- The sub_ar step function preserves the flag invariant: each write to F goes
through fset on a defined high-nibble bit, clears F, or masks with 0xF0. -/
theorem sub_ar_finv (p : Proc) (c : Cpu) (m : Mem)
    (h : FInv c.regs.f) (r : Proc × Cpu × Mem) (hr : sub_ar p c m = some r) :
    FInv r.2.1.regs.f := by
  simp only [sub_ar, Cpu.fetch, Cpu.stack_push, Cpu.stack_pop,
    alu_add, alu_sub, alu_adc, alu_add_u16] at hr
  repeat' (first | (split_ifs at hr) | (split at hr))
  all_goals
    first
      | exact Option.noConfusion hr
      | (injection hr with hr
         subst hr
         simp only [rstore_f, set_pclo_f, set_pchi_f, set_splo_f, set_sphi_f, set_hl_f]
         repeat first
           | exact h
           | exact finv_zero
           | exact finv_and240 _ (bread_lt _ _)
           | (refine finvZ _ _ ?_)
           | (refine finvN _ _ ?_)
           | (refine finvH _ _ ?_)
           | (refine finvC _ _ ?_))

set_option maxHeartbeats 4000000 in
set_option maxRecDepth 16384 in
/-- The and_ar step function preserves the flag invariant: each write to F goes
through fset on a defined high-nibble bit, clears F, or masks with 0xF0. -/
theorem and_ar_finv (p : Proc) (c : Cpu) (m : Mem)
    (h : FInv c.regs.f) (r : Proc × Cpu × Mem) (hr : and_ar p c m = some r) :
    FInv r.2.1.regs.f := by
  simp only [and_ar, Cpu.fetch, Cpu.stack_push, Cpu.stack_pop,
    alu_add, alu_sub, alu_adc, alu_add_u16] at hr
  repeat' (first | (split_ifs at hr) | (split at hr))
  all_goals
    first
      | exact Option.noConfusion hr
      | (injection hr with hr
         subst hr
         simp only [rstore_f, set_pclo_f, set_pchi_f, set_splo_f, set_sphi_f, set_hl_f]
         repeat first
           | exact h
           | exact finv_zero
           | exact finv_and240 _ (bread_lt _ _)
           | (refine finvZ _ _ ?_)
           | (refine finvN _ _ ?_)
           | (refine finvH _ _ ?_)
           | (refine finvC _ _ ?_))

set_option maxHeartbeats 4000000 in
set_option maxRecDepth 16384 in
/-- The xor_ar step function preserves the flag invariant: each write to F goes
through fset on a defined high-nibble bit, clears F, or masks with 0xF0. -/
theorem xor_ar_finv (p : Proc) (c : Cpu) (m : Mem)
    (h : FInv c.regs.f) (r : Proc × Cpu × Mem) (hr : xor_ar p c m = some r) :
    FInv r.2.1.regs.f := by
  simp only [xor_ar, Cpu.fetch, Cpu.stack_push, Cpu.stack_pop,
    alu_add, alu_sub, alu_adc, alu_add_u16] at hr
  repeat' (first | (split_ifs at hr) | (split at hr))
  all_goals
    first
      | exact Option.noConfusion hr
      | (injection hr with hr
         subst hr
         simp only [rstore_f, set_pclo_f, set_pchi_f, set_splo_f, set_sphi_f, set_hl_f]
         repeat first
           | exact h
           | exact finv_zero
           | exact finv_and240 _ (bread_lt _ _)
           | (refine finvZ _ _ ?_)
           | (refine finvN _ _ ?_)
           | (refine finvH _ _ ?_)
           | (refine finvC _ _ ?_))

set_option maxHeartbeats 4000000 in
set_option maxRecDepth 16384 in
/-- The or_ar step function preserves the flag invariant: each write to F goes
through fset on a defined high-nibble bit, clears F, or masks with 0xF0. -/
theorem or_ar_finv (p : Proc) (c : Cpu) (m : Mem)
    (h : FInv c.regs.f) (r : Proc × Cpu × Mem) (hr : or_ar p c m = some r) :
    FInv r.2.1.regs.f := by
  simp only [or_ar, Cpu.fetch, Cpu.stack_push, Cpu.stack_pop,
    alu_add, alu_sub, alu_adc, alu_add_u16] at hr
  repeat' (first | (split_ifs at hr) | (split at hr))
  all_goals
    first
      | exact Option.noConfusion hr
      | (injection hr with hr
         subst hr
         simp only [rstore_f, set_pclo_f, set_pchi_f, set_splo_f, set_sphi_f, set_hl_f]
         repeat first
           | exact h
           | exact finv_zero
           | exact finv_and240 _ (bread_lt _ _)
           | (refine finvZ _ _ ?_)
           | (refine finvN _ _ ?_)
           | (refine finvH _ _ ?_)
           | (refine finvC _ _ ?_))

set_option maxHeartbeats 4000000 in
set_option maxRecDepth 16384 in
/-- The cp_ar step function preserves the flag invariant: each write to F goes
through fset on a defined high-nibble bit, clears F, or masks with 0xF0. -/
theorem cp_ar_finv (p : Proc) (c : Cpu) (m : Mem)
    (h : FInv c.regs.f) (r : Proc × Cpu × Mem) (hr : cp_ar p c m = some r) :
    FInv r.2.1.regs.f := by
  simp only [cp_ar, Cpu.fetch, Cpu.stack_push, Cpu.stack_pop,
    alu_add, alu_sub, alu_adc, alu_add_u16] at hr
  repeat' (first | (split_ifs at hr) | (split at hr))
  all_goals
    first
      | exact Option.noConfusion hr
      | (injection hr with hr
         subst hr
         simp only [rstore_f, set_pclo_f, set_pchi_f, set_splo_f, set_sphi_f, set_hl_f]
         repeat first
           | exact h
           | exact finv_zero
           | exact finv_and240 _ (bread_lt _ _)
           | (refine finvZ _ _ ?_)
           | (refine finvN _ _ ?_)
           | (refine finvH _ _ ?_)
           | (refine finvC _ _ ?_))

set_option maxHeartbeats 4000000 in
set_option maxRecDepth 16384 in
/-- The ld_ru8 step function preserves the flag invariant: each write to F goes
through fset on a defined high-nibble bit, clears F, or masks with 0xF0. -/
theorem ld_ru8_finv (p : Proc) (c : Cpu) (m : Mem)
    (h : FInv c.regs.f) (r : Proc × Cpu × Mem) (hr : ld_ru8 p c m = some r) :
    FInv r.2.1.regs.f := by
  simp only [ld_ru8, Cpu.fetch, Cpu.stack_push, Cpu.stack_pop,
    alu_add, alu_sub, alu_adc, alu_add_u16] at hr
  repeat' (first | (split_ifs at hr) | (split at hr))
  all_goals
    first
      | exact Option.noConfusion hr
      | (injection hr with hr
         subst hr
         simp only [rstore_f, set_pclo_f, set_pchi_f, set_splo_f, set_sphi_f, set_hl_f]
         repeat first
           | exact h
           | exact finv_zero
           | exact finv_and240 _ (bread_lt _ _)
           | (refine finvZ _ _ ?_)
           | (refine finvN _ _ ?_)
           | (refine finvH _ _ ?_)
           | (refine finvC _ _ ?_))

set_option maxHeartbeats 4000000 in
set_option maxRecDepth 16384 in
/-- The ld_rr step function preserves the flag invariant: each write to F goes
through fset on a defined high-nibble bit, clears F, or masks with 0xF0. -/
theorem ld_rr_finv (p : Proc) (c : Cpu) (m : Mem)
    (h : FInv c.regs.f) (r : Proc × Cpu × Mem) (hr : ld_rr p c m = some r) :
    FInv r.2.1.regs.f := by
  simp only [ld_rr, Cpu.fetch, Cpu.stack_push, Cpu.stack_pop,
    alu_add, alu_sub, alu_adc, alu_add_u16] at hr
  repeat' (first | (split_ifs at hr) | (split at hr))
  all_goals
    first
      | exact Option.noConfusion hr
      | (injection hr with hr
         subst hr
         simp only [rstore_f, set_pclo_f, set_pchi_f, set_splo_f, set_sphi_f, set_hl_f]
         repeat first
           | exact h
           | exact finv_zero
           | exact finv_and240 _ (bread_lt _ _)
           | (refine finvZ _ _ ?_)
           | (refine finvN _ _ ?_)
           | (refine finvH _ _ ?_)
           | (refine finvC _ _ ?_))

set_option maxHeartbeats 4000000 in
set_option maxRecDepth 16384 in
/-- The rlca step function preserves the flag invariant: each write to F goes
through fset on a defined high-nibble bit, clears F, or masks with 0xF0. -/
theorem rlca_finv (p : Proc) (c : Cpu) (m : Mem)
    (h : FInv c.regs.f) (r : Proc × Cpu × Mem) (hr : rlca p c m = some r) :
    FInv r.2.1.regs.f := by
  simp only [rlca, Cpu.fetch, Cpu.stack_push, Cpu.stack_pop,
    alu_add, alu_sub, alu_adc, alu_add_u16] at hr
  repeat' (first | (split_ifs at hr) | (split at hr))
  all_goals
    first
      | exact Option.noConfusion hr
      | (injection hr with hr
         subst hr
         simp only [rstore_f, set_pclo_f, set_pchi_f, set_splo_f, set_sphi_f, set_hl_f]
         repeat first
           | exact h
           | exact finv_zero
           | exact finv_and240 _ (bread_lt _ _)
           | (refine finvZ _ _ ?_)
           | (refine finvN _ _ ?_)
           | (refine finvH _ _ ?_)
           | (refine finvC _ _ ?_))

set_option maxHeartbeats 4000000 in
set_option maxRecDepth 16384 in
/-- The rrca step function preserves the flag invariant: each write to F goes
through fset on a defined high-nibble bit, clears F, or masks with 0xF0. -/
theorem rrca_finv (p : Proc) (c : Cpu) (m : Mem)
    (h : FInv c.regs.f) (r : Proc × Cpu × Mem) (hr : rrca p c m = some r) :
    FInv r.2.1.regs.f := by
  simp only [rrca, Cpu.fetch, Cpu.stack_push, Cpu.stack_pop,
    alu_add, alu_sub, alu_adc, alu_add_u16] at hr
  repeat' (first | (split_ifs at hr) | (split at hr))
  all_goals
    first
      | exact Option.noConfusion hr
      | (injection hr with hr
         subst hr
         simp only [rstore_f, set_pclo_f, set_pchi_f, set_splo_f, set_sphi_f, set_hl_f]
         repeat first
           | exact h
           | exact finv_zero
           | exact finv_and240 _ (bread_lt _ _)
           | (refine finvZ _ _ ?_)
           | (refine finvN _ _ ?_)
           | (refine finvH _ _ ?_)
           | (refine finvC _ _ ?_))

set_option maxHeartbeats 4000000 in
set_option maxRecDepth 16384 in
/-- The rla step function preserves the flag invariant: each write to F goes
through fset on a defined high-nibble bit, clears F, or masks with 0xF0. -/
theorem rla_finv (p : Proc) (c : Cpu) (m : Mem)
    (h : FInv c.regs.f) (r : Proc × Cpu × Mem) (hr : rla p c m = some r) :
    FInv r.2.1.regs.f := by
  simp only [rla, Cpu.fetch, Cpu.stack_push, Cpu.stack_pop,
    alu_add, alu_sub, alu_adc, alu_add_u16] at hr
  repeat' (first | (split_ifs at hr) | (split at hr))
  all_goals
    first
      | exact Option.noConfusion hr
      | (injection hr with hr
         subst hr
         simp only [rstore_f, set_pclo_f, set_pchi_f, set_splo_f, set_sphi_f, set_hl_f]
         repeat first
           | exact h
           | exact finv_zero
           | exact finv_and240 _ (bread_lt _ _)
           | (refine finvZ _ _ ?_)
           | (refine finvN _ _ ?_)
           | (refine finvH _ _ ?_)
           | (refine finvC _ _ ?_))

set_option maxHeartbeats 4000000 in
set_option maxRecDepth 16384 in
/-- The rra step function preserves the flag invariant: each write to F goes
through fset on a defined high-nibble bit, clears F, or masks with 0xF0. -/
theorem rra_finv (p : Proc) (c : Cpu) (m : Mem)
    (h : FInv c.regs.f) (r : Proc × Cpu × Mem) (hr : rra p c m = some r) :
    FInv r.2.1.regs.f := by
  simp only [rra, Cpu.fetch, Cpu.stack_push, Cpu.stack_pop,
    alu_add, alu_sub, alu_adc, alu_add_u16] at hr
  repeat' (first | (split_ifs at hr) | (split at hr))
  all_goals
    first
      | exact Option.noConfusion hr
      | (injection hr with hr
         subst hr
         simp only [rstore_f, set_pclo_f, set_pchi_f, set_splo_f, set_sphi_f, set_hl_f]
         repeat first
           | exact h
           | exact finv_zero
           | exact finv_and240 _ (bread_lt _ _)
           | (refine finvZ _ _ ?_)
           | (refine finvN _ _ ?_)
           | (refine finvH _ _ ?_)
           | (refine finvC _ _ ?_))

set_option maxHeartbeats 4000000 in
set_option maxRecDepth 16384 in
/-- The daa step function preserves the flag invariant: each write to F goes
through fset on a defined high-nibble bit, clears F, or masks with 0xF0. -/
theorem daa_finv (p : Proc) (c : Cpu) (m : Mem)
    (h : FInv c.regs.f) (r : Proc × Cpu × Mem) (hr : daa p c m = some r) :
    FInv r.2.1.regs.f := by
  simp only [daa, Cpu.fetch, Cpu.stack_push, Cpu.stack_pop,
    alu_add, alu_sub, alu_adc, alu_add_u16] at hr
  repeat' (first | (split_ifs at hr) | (split at hr))
  all_goals
    first
      | exact Option.noConfusion hr
      | (injection hr with hr
         subst hr
         simp only [rstore_f, set_pclo_f, set_pchi_f, set_splo_f, set_sphi_f, set_hl_f]
         repeat first
           | exact h
           | exact finv_zero
           | exact finv_and240 _ (bread_lt _ _)
           | (refine finvZ _ _ ?_)
           | (refine finvN _ _ ?_)
           | (refine finvH _ _ ?_)
           | (refine finvC _ _ ?_))

set_option maxHeartbeats 4000000 in
set_option maxRecDepth 16384 in
/-- The cpl step function preserves the flag invariant: each write to F goes
through fset on a defined high-nibble bit, clears F, or masks with 0xF0. -/
theorem cpl_finv (p : Proc) (c : Cpu) (m : Mem)
    (h : FInv c.regs.f) (r : Proc × Cpu × Mem) (hr : cpl p c m = some r) :
    FInv r.2.1.regs.f := by
  simp only [cpl, Cpu.fetch, Cpu.stack_push, Cpu.stack_pop,
    alu_add, alu_sub, alu_adc, alu_add_u16] at hr
  repeat' (first | (split_ifs at hr) | (split at hr))
  all_goals
    first
      | exact Option.noConfusion hr
      | (injection hr with hr
         subst hr
         simp only [rstore_f, set_pclo_f, set_pchi_f, set_splo_f, set_sphi_f, set_hl_f]
         repeat first
           | exact h
           | exact finv_zero
           | exact finv_and240 _ (bread_lt _ _)
           | (refine finvZ _ _ ?_)
           | (refine finvN _ _ ?_)
           | (refine finvH _ _ ?_)
           | (refine finvC _ _ ?_))

set_option maxHeartbeats 4000000 in
set_option maxRecDepth 16384 in
/-- The scf step function preserves the flag invariant: each write to F goes
through fset on a defined high-nibble bit, clears F, or masks with 0xF0. -/
theorem scf_finv (p : Proc) (c : Cpu) (m : Mem)
    (h : FInv c.regs.f) (r : Proc × Cpu × Mem) (hr : scf p c m = some r) :
    FInv r.2.1.regs.f := by
  simp only [scf, Cpu.fetch, Cpu.stack_push, Cpu.stack_pop,
    alu_add, alu_sub, alu_adc, alu_add_u16] at hr
  repeat' (first | (split_ifs at hr) | (split at hr))
  all_goals
    first
      | exact Option.noConfusion hr
      | (injection hr with hr
         subst hr
         simp only [rstore_f, set_pclo_f, set_pchi_f, set_splo_f, set_sphi_f, set_hl_f]
         repeat first
           | exact h
           | exact finv_zero
           | exact finv_and240 _ (bread_lt _ _)
           | (refine finvZ _ _ ?_)
           | (refine finvN _ _ ?_)
           | (refine finvH _ _ ?_)
           | (refine finvC _ _ ?_))

set_option maxHeartbeats 4000000 in
set_option maxRecDepth 16384 in
/-- The ccf step function preserves the flag invariant: each write to F goes
through fset on a defined high-nibble bit, clears F, or masks with 0xF0. -/
theorem ccf_finv (p : Proc) (c : Cpu) (m : Mem)
    (h : FInv c.regs.f) (r : Proc × Cpu × Mem) (hr : ccf p c m = some r) :
    FInv r.2.1.regs.f := by
  simp only [ccf, Cpu.fetch, Cpu.stack_push, Cpu.stack_pop,
    alu_add, alu_sub, alu_adc, alu_add_u16] at hr
  repeat' (first | (split_ifs at hr) | (split at hr))
  all_goals
    first
      | exact Option.noConfusion hr
      | (injection hr with hr
         subst hr
         simp only [rstore_f, set_pclo_f, set_pchi_f, set_splo_f, set_sphi_f, set_hl_f]
         repeat first
           | exact h
           | exact finv_zero
           | exact finv_and240 _ (bread_lt _ _)
           | (refine finvZ _ _ ?_)
           | (refine finvN _ _ ?_)
           | (refine finvH _ _ ?_)
           | (refine finvC _ _ ?_))

set_option maxHeartbeats 4000000 in
set_option maxRecDepth 16384 in
/-- The add_au8 step function preserves the flag invariant: each write to F goes
through fset on a defined high-nibble bit, clears F, or masks with 0xF0. -/
theorem add_au8_finv (p : Proc) (c : Cpu) (m : Mem)
    (h : FInv c.regs.f) (r : Proc × Cpu × Mem) (hr : add_au8 p c m = some r) :
    FInv r.2.1.regs.f := by
  simp only [add_au8, Cpu.fetch, Cpu.stack_push, Cpu.stack_pop,
    alu_add, alu_sub, alu_adc, alu_add_u16] at hr
  repeat' (first | (split_ifs at hr) | (split at hr))
  all_goals
    first
      | exact Option.noConfusion hr
      | (injection hr with hr
         subst hr
         simp only [rstore_f, set_pclo_f, set_pchi_f, set_splo_f, set_sphi_f, set_hl_f]
         repeat first
           | exact h
           | exact finv_zero
           | exact finv_and240 _ (bread_lt _ _)
           | (refine finvZ _ _ ?_)
           | (refine finvN _ _ ?_)
           | (refine finvH _ _ ?_)
           | (refine finvC _ _ ?_))

set_option maxHeartbeats 4000000 in
set_option maxRecDepth 16384 in
/-- The adc_au8 step function preserves the flag invariant: each write to F goes
through fset on a defined high-nibble bit, clears F, or masks with 0xF0. -/
theorem adc_au8_finv (p : Proc) (c : Cpu) (m : Mem)
    (h : FInv c.regs.f) (r : Proc × Cpu × Mem) (hr : adc_au8 p c m = some r) :
    FInv r.2.1.regs.f := by
  simp only [adc_au8, Cpu.fetch, Cpu.stack_push, Cpu.stack_pop,
    alu_add, alu_sub, alu_adc, alu_add_u16] at hr
  repeat' (first | (split_ifs at hr) | (split at hr))
  all_goals
    first
      | exact Option.noConfusion hr
      | (injection hr with hr
         subst hr
         simp only [rstore_f, set_pclo_f, set_pchi_f, set_splo_f, set_sphi_f, set_hl_f]
         repeat first
           | exact h
           | exact finv_zero
           | exact finv_and240 _ (bread_lt _ _)
           | (refine finvZ _ _ ?_)
           | (refine finvN _ _ ?_)
           | (refine finvH _ _ ?_)
           | (refine finvC _ _ ?_))

set_option maxHeartbeats 4000000 in
set_option maxRecDepth 16384 in
/-- The sub_au8 step function preserves the flag invariant: each write to F goes
through fset on a defined high-nibble bit, clears F, or masks with 0xF0. -/
theorem sub_au8_finv (p : Proc) (c : Cpu) (m : Mem)
    (h : FInv c.regs.f) (r : Proc × Cpu × Mem) (hr : sub_au8 p c m = some r) :
    FInv r.2.1.regs.f := by
  simp only [sub_au8, Cpu.fetch, Cpu.stack_push, Cpu.stack_pop,
    alu_add, alu_sub, alu_adc, alu_add_u16] at hr
  repeat' (first | (split_ifs at hr) | (split at hr))
  all_goals
    first
      | exact Option.noConfusion hr
      | (injection hr with hr
         subst hr
         simp only [rstore_f, set_pclo_f, set_pchi_f, set_splo_f, set_sphi_f, set_hl_f]
         repeat first
           | exact h
           | exact finv_zero
           | exact finv_and240 _ (bread_lt _ _)
           | (refine finvZ _ _ ?_)
           | (refine finvN _ _ ?_)
           | (refine finvH _ _ ?_)
           | (refine finvC _ _ ?_))

set_option maxHeartbeats 4000000 in
set_option maxRecDepth 16384 in
/-- The and_au8 step function preserves the flag invariant: each write to F goes
through fset on a defined high-nibble bit, clears F, or masks with 0xF0. -/
theorem and_au8_finv (p : Proc) (c : Cpu) (m : Mem)
    (h : FInv c.regs.f) (r : Proc × Cpu × Mem) (hr : and_au8 p c m = some r) :
    FInv r.2.1.regs.f := by
  simp only [and_au8, Cpu.fetch, Cpu.stack_push, Cpu.stack_pop,
    alu_add, alu_sub, alu_adc, alu_add_u16] at hr
  repeat' (first | (split_ifs at hr) | (split at hr))
  all_goals
    first
      | exact Option.noConfusion hr
      | (injection hr with hr
         subst hr
         simp only [rstore_f, set_pclo_f, set_pchi_f, set_splo_f, set_sphi_f, set_hl_f]
         repeat first
           | exact h
           | exact finv_zero
           | exact finv_and240 _ (bread_lt _ _)
           | (refine finvZ _ _ ?_)
           | (refine finvN _ _ ?_)
           | (refine finvH _ _ ?_)
           | (refine finvC _ _ ?_))

set_option maxHeartbeats 4000000 in
set_option maxRecDepth 16384 in
/-- The xor_au8 step function preserves the flag invariant: each write to F goes
through fset on a defined high-nibble bit, clears F, or masks with 0xF0. -/
theorem xor_au8_finv (p : Proc) (c : Cpu) (m : Mem)
    (h : FInv c.regs.f) (r : Proc × Cpu × Mem) (hr : xor_au8 p c m = some r) :
    FInv r.2.1.regs.f := by
  simp only [xor_au8, Cpu.fetch, Cpu.stack_push, Cpu.stack_pop,
    alu_add, alu_sub, alu_adc, alu_add_u16] at hr
  repeat' (first | (split_ifs at hr) | (split at hr))
  all_goals
    first
      | exact Option.noConfusion hr
      | (injection hr with hr
         subst hr
         simp only [rstore_f, set_pclo_f, set_pchi_f, set_splo_f, set_sphi_f, set_hl_f]
         repeat first
           | exact h
           | exact finv_zero
           | exact finv_and240 _ (bread_lt _ _)
           | (refine finvZ _ _ ?_)
           | (refine finvN _ _ ?_)
           | (refine finvH _ _ ?_)
           | (refine finvC _ _ ?_))

set_option maxHeartbeats 4000000 in
set_option maxRecDepth 16384 in
/-- The or_au8 step function preserves the flag invariant: each write to F goes
through fset on a defined high-nibble bit, clears F, or masks with 0xF0. -/
theorem or_au8_finv (p : Proc) (c : Cpu) (m : Mem)
    (h : FInv c.regs.f) (r : Proc × Cpu × Mem) (hr : or_au8 p c m = some r) :
    FInv r.2.1.regs.f := by
  simp only [or_au8, Cpu.fetch, Cpu.stack_push, Cpu.stack_pop,
    alu_add, alu_sub, alu_adc, alu_add_u16] at hr
  repeat' (first | (split_ifs at hr) | (split at hr))
  all_goals
    first
      | exact Option.noConfusion hr
      | (injection hr with hr
         subst hr
         simp only [rstore_f, set_pclo_f, set_pchi_f, set_splo_f, set_sphi_f, set_hl_f]
         repeat first
           | exact h
           | exact finv_zero
           | exact finv_and240 _ (bread_lt _ _)
           | (refine finvZ _ _ ?_)
           | (refine finvN _ _ ?_)
           | (refine finvH _ _ ?_)
           | (refine finvC _ _ ?_))

set_option maxHeartbeats 4000000 in
set_option maxRecDepth 16384 in
/-- The cp_au8 step function preserves the flag invariant: each write to F goes
through fset on a defined high-nibble bit, clears F, or masks with 0xF0. -/
theorem cp_au8_finv (p : Proc) (c : Cpu) (m : Mem)
    (h : FInv c.regs.f) (r : Proc × Cpu × Mem) (hr : cp_au8 p c m = some r) :
    FInv r.2.1.regs.f := by
  simp only [cp_au8, Cpu.fetch, Cpu.stack_push, Cpu.stack_pop,
    alu_add, alu_sub, alu_adc, alu_add_u16] at hr
  repeat' (first | (split_ifs at hr) | (split at hr))
  all_goals
    first
      | exact Option.noConfusion hr
      | (injection hr with hr
         subst hr
         simp only [rstore_f, set_pclo_f, set_pchi_f, set_splo_f, set_sphi_f, set_hl_f]
         repeat first
           | exact h
           | exact finv_zero
           | exact finv_and240 _ (bread_lt _ _)
           | (refine finvZ _ _ ?_)
           | (refine finvN _ _ ?_)
           | (refine finvH _ _ ?_)
           | (refine finvC _ _ ?_))

set_option maxHeartbeats 4000000 in
set_option maxRecDepth 16384 in
/-- The ld_toindirect step function preserves the flag invariant: each write to F goes
through fset on a defined high-nibble bit, clears F, or masks with 0xF0. -/
theorem ld_toindirect_finv (p : Proc) (c : Cpu) (m : Mem)
    (h : FInv c.regs.f) (r : Proc × Cpu × Mem) (hr : ld_toindirect p c m = some r) :
    FInv r.2.1.regs.f := by
  simp only [ld_toindirect, Cpu.fetch, Cpu.stack_push, Cpu.stack_pop,
    alu_add, alu_sub, alu_adc, alu_add_u16] at hr
  repeat' (first | (split_ifs at hr) | (split at hr))
  all_goals
    first
      | exact Option.noConfusion hr
      | (injection hr with hr
         subst hr
         simp only [rstore_f, set_pclo_f, set_pchi_f, set_splo_f, set_sphi_f, set_hl_f]
         repeat first
           | exact h
           | exact finv_zero
           | exact finv_and240 _ (bread_lt _ _)
           | (refine finvZ _ _ ?_)
           | (refine finvN _ _ ?_)
           | (refine finvH _ _ ?_)
           | (refine finvC _ _ ?_))

set_option maxHeartbeats 4000000 in
set_option maxRecDepth 16384 in
/-- The ld_fromindirect step function preserves the flag invariant: each write to F goes
through fset on a defined high-nibble bit, clears F, or masks with 0xF0. -/
theorem ld_fromindirect_finv (p : Proc) (c : Cpu) (m : Mem)
    (h : FInv c.regs.f) (r : Proc × Cpu × Mem) (hr : ld_fromindirect p c m = some r) :
    FInv r.2.1.regs.f := by
  simp only [ld_fromindirect, Cpu.fetch, Cpu.stack_push, Cpu.stack_pop,
    alu_add, alu_sub, alu_adc, alu_add_u16] at hr
  repeat' (first | (split_ifs at hr) | (split at hr))
  all_goals
    first
      | exact Option.noConfusion hr
      | (injection hr with hr
         subst hr
         simp only [rstore_f, set_pclo_f, set_pchi_f, set_splo_f, set_sphi_f, set_hl_f]
         repeat first
           | exact h
           | exact finv_zero
           | exact finv_and240 _ (bread_lt _ _)
           | (refine finvZ _ _ ?_)
           | (refine finvN _ _ ?_)
           | (refine finvH _ _ ?_)
           | (refine finvC _ _ ?_))

set_option maxHeartbeats 4000000 in
set_option maxRecDepth 16384 in
/-- The pop step function preserves the flag invariant: each write to F goes
through fset on a defined high-nibble bit, clears F, or masks with 0xF0. -/
theorem pop_finv (p : Proc) (c : Cpu) (m : Mem)
    (h : FInv c.regs.f) (r : Proc × Cpu × Mem) (hr : pop p c m = some r) :
    FInv r.2.1.regs.f := by
  simp only [pop, Cpu.fetch, Cpu.stack_push, Cpu.stack_pop,
    alu_add, alu_sub, alu_adc, alu_add_u16] at hr
  repeat' (first | (split_ifs at hr) | (split at hr))
  all_goals
    first
      | exact Option.noConfusion hr
      | (injection hr with hr
         subst hr
         simp only [rstore_f, set_pclo_f, set_pchi_f, set_splo_f, set_sphi_f, set_hl_f]
         repeat first
           | exact h
           | exact finv_zero
           | exact finv_and240 _ (bread_lt _ _)
           | (refine finvZ _ _ ?_)
           | (refine finvN _ _ ?_)
           | (refine finvH _ _ ?_)
           | (refine finvC _ _ ?_))

set_option maxHeartbeats 4000000 in
set_option maxRecDepth 16384 in
/-- The push step function preserves the flag invariant: each write to F goes
through fset on a defined high-nibble bit, clears F, or masks with 0xF0. -/
theorem push_finv (p : Proc) (c : Cpu) (m : Mem)
    (h : FInv c.regs.f) (r : Proc × Cpu × Mem) (hr : push p c m = some r) :
    FInv r.2.1.regs.f := by
  simp only [push, Cpu.fetch, Cpu.stack_push, Cpu.stack_pop,
    alu_add, alu_sub, alu_adc, alu_add_u16] at hr
  repeat' (first | (split_ifs at hr) | (split at hr))
  all_goals
    first
      | exact Option.noConfusion hr
      | (injection hr with hr
         subst hr
         simp only [rstore_f, set_pclo_f, set_pchi_f, set_splo_f, set_sphi_f, set_hl_f]
         repeat first
           | exact h
           | exact finv_zero
           | exact finv_and240 _ (bread_lt _ _)
           | (refine finvZ _ _ ?_)
           | (refine finvN _ _ ?_)
           | (refine finvH _ _ ?_)
           | (refine finvC _ _ ?_))

set_option maxHeartbeats 4000000 in
set_option maxRecDepth 16384 in
/-- The call_cond step function preserves the flag invariant: each write to F goes
through fset on a defined high-nibble bit, clears F, or masks with 0xF0. -/
theorem call_cond_finv (p : Proc) (c : Cpu) (m : Mem)
    (h : FInv c.regs.f) (r : Proc × Cpu × Mem) (hr : call_cond p c m = some r) :
    FInv r.2.1.regs.f := by
  simp only [call_cond, Cpu.fetch, Cpu.stack_push, Cpu.stack_pop,
    alu_add, alu_sub, alu_adc, alu_add_u16] at hr
  repeat' (first | (split_ifs at hr) | (split at hr))
  all_goals
    first
      | exact Option.noConfusion hr
      | (injection hr with hr
         subst hr
         simp only [rstore_f, set_pclo_f, set_pchi_f, set_splo_f, set_sphi_f, set_hl_f]
         repeat first
           | exact h
           | exact finv_zero
           | exact finv_and240 _ (bread_lt _ _)
           | (refine finvZ _ _ ?_)
           | (refine finvN _ _ ?_)
           | (refine finvH _ _ ?_)
           | (refine finvC _ _ ?_))

set_option maxHeartbeats 4000000 in
set_option maxRecDepth 16384 in
/-- The call_u16 step function preserves the flag invariant: each write to F goes
through fset on a defined high-nibble bit, clears F, or masks with 0xF0. -/
theorem call_u16_finv (p : Proc) (c : Cpu) (m : Mem)
    (h : FInv c.regs.f) (r : Proc × Cpu × Mem) (hr : call_u16 p c m = some r) :
    FInv r.2.1.regs.f := by
  simp only [call_u16, Cpu.fetch, Cpu.stack_push, Cpu.stack_pop,
    alu_add, alu_sub, alu_adc, alu_add_u16] at hr
  repeat' (first | (split_ifs at hr) | (split at hr))
  all_goals
    first
      | exact Option.noConfusion hr
      | (injection hr with hr
         subst hr
         simp only [rstore_f, set_pclo_f, set_pchi_f, set_splo_f, set_sphi_f, set_hl_f]
         repeat first
           | exact h
           | exact finv_zero
           | exact finv_and240 _ (bread_lt _ _)
           | (refine finvZ _ _ ?_)
           | (refine finvN _ _ ?_)
           | (refine finvH _ _ ?_)
           | (refine finvC _ _ ?_))

set_option maxHeartbeats 4000000 in
set_option maxRecDepth 16384 in
/-- The ret step function preserves the flag invariant: each write to F goes
through fset on a defined high-nibble bit, clears F, or masks with 0xF0. -/
theorem ret_finv (p : Proc) (c : Cpu) (m : Mem)
    (h : FInv c.regs.f) (r : Proc × Cpu × Mem) (hr : ret p c m = some r) :
    FInv r.2.1.regs.f := by
  simp only [ret, Cpu.fetch, Cpu.stack_push, Cpu.stack_pop,
    alu_add, alu_sub, alu_adc, alu_add_u16] at hr
  repeat' (first | (split_ifs at hr) | (split at hr))
  all_goals
    first
      | exact Option.noConfusion hr
      | (injection hr with hr
         subst hr
         simp only [rstore_f, set_pclo_f, set_pchi_f, set_splo_f, set_sphi_f, set_hl_f]
         repeat first
           | exact h
           | exact finv_zero
           | exact finv_and240 _ (bread_lt _ _)
           | (refine finvZ _ _ ?_)
           | (refine finvN _ _ ?_)
           | (refine finvH _ _ ?_)
           | (refine finvC _ _ ?_))

set_option maxHeartbeats 4000000 in
set_option maxRecDepth 16384 in
/-- The ret_cond step function preserves the flag invariant: each write to F goes
through fset on a defined high-nibble bit, clears F, or masks with 0xF0. -/
theorem ret_cond_finv (p : Proc) (c : Cpu) (m : Mem)
    (h : FInv c.regs.f) (r : Proc × Cpu × Mem) (hr : ret_cond p c m = some r) :
    FInv r.2.1.regs.f := by
  simp only [ret_cond, Cpu.fetch, Cpu.stack_push, Cpu.stack_pop,
    alu_add, alu_sub, alu_adc, alu_add_u16] at hr
  repeat' (first | (split_ifs at hr) | (split at hr))
  all_goals
    first
      | exact Option.noConfusion hr
      | (injection hr with hr
         subst hr
         simp only [rstore_f, set_pclo_f, set_pchi_f, set_splo_f, set_sphi_f, set_hl_f]
         repeat first
           | exact h
           | exact finv_zero
           | exact finv_and240 _ (bread_lt _ _)
           | (refine finvZ _ _ ?_)
           | (refine finvN _ _ ?_)
           | (refine finvH _ _ ?_)
           | (refine finvC _ _ ?_))

set_option maxHeartbeats 4000000 in
set_option maxRecDepth 16384 in
/-- The add_hlrp step function preserves the flag invariant: each write to F goes
through fset on a defined high-nibble bit, clears F, or masks with 0xF0. -/
theorem add_hlrp_finv (p : Proc) (c : Cpu) (m : Mem)
    (h : FInv c.regs.f) (r : Proc × Cpu × Mem) (hr : add_hlrp p c m = some r) :
    FInv r.2.1.regs.f := by
  simp only [add_hlrp, Cpu.fetch, Cpu.stack_push, Cpu.stack_pop,
    alu_add, alu_sub, alu_adc, alu_add_u16] at hr
  repeat' (first | (split_ifs at hr) | (split at hr))
  all_goals
    first
      | exact Option.noConfusion hr
      | (injection hr with hr
         subst hr
         simp only [rstore_f, set_pclo_f, set_pchi_f, set_splo_f, set_sphi_f, set_hl_f]
         repeat first
           | exact h
           | exact finv_zero
           | exact finv_and240 _ (bread_lt _ _)
           | (refine finvZ _ _ ?_)
           | (refine finvN _ _ ?_)
           | (refine finvH _ _ ?_)
           | (refine finvC _ _ ?_))

set_option maxHeartbeats 4000000 in
set_option maxRecDepth 16384 in
/-- The ld_sphl step function preserves the flag invariant: each write to F goes
through fset on a defined high-nibble bit, clears F, or masks with 0xF0. -/
theorem ld_sphl_finv (p : Proc) (c : Cpu) (m : Mem)
    (h : FInv c.regs.f) (r : Proc × Cpu × Mem) (hr : ld_sphl p c m = some r) :
    FInv r.2.1.regs.f := by
  simp only [ld_sphl, Cpu.fetch, Cpu.stack_push, Cpu.stack_pop,
    alu_add, alu_sub, alu_adc, alu_add_u16] at hr
  repeat' (first | (split_ifs at hr) | (split at hr))
  all_goals
    first
      | exact Option.noConfusion hr
      | (injection hr with hr
         subst hr
         simp only [rstore_f, set_pclo_f, set_pchi_f, set_splo_f, set_sphi_f, set_hl_f]
         repeat first
           | exact h
           | exact finv_zero
           | exact finv_and240 _ (bread_lt _ _)
           | (refine finvZ _ _ ?_)
           | (refine finvN _ _ ?_)
           | (refine finvH _ _ ?_)
           | (refine finvC _ _ ?_))

set_option maxHeartbeats 4000000 in
set_option maxRecDepth 16384 in
/-- The ld_rpu16 step function preserves the flag invariant: each write to F goes
through fset on a defined high-nibble bit, clears F, or masks with 0xF0. -/
theorem ld_rpu16_finv (p : Proc) (c : Cpu) (m : Mem)
    (h : FInv c.regs.f) (r : Proc × Cpu × Mem) (hr : ld_rpu16 p c m = some r) :
    FInv r.2.1.regs.f := by
  simp only [ld_rpu16, Cpu.fetch, Cpu.stack_push, Cpu.stack_pop,
    alu_add, alu_sub, alu_adc, alu_add_u16] at hr
  repeat' (first | (split_ifs at hr) | (split at hr))
  all_goals
    first
      | exact Option.noConfusion hr
      | (injection hr with hr
         subst hr
         simp only [rstore_f, set_pclo_f, set_pchi_f, set_splo_f, set_sphi_f, set_hl_f]
         repeat first
           | exact h
           | exact finv_zero
           | exact finv_and240 _ (bread_lt _ _)
           | (refine finvZ _ _ ?_)
           | (refine finvN _ _ ?_)
           | (refine finvH _ _ ?_)
           | (refine finvC _ _ ?_))

set_option maxHeartbeats 4000000 in
set_option maxRecDepth 16384 in
/-- The ld_toio_c step function preserves the flag invariant: each write to F goes
through fset on a defined high-nibble bit, clears F, or masks with 0xF0. -/
theorem ld_toio_c_finv (p : Proc) (c : Cpu) (m : Mem)
    (h : FInv c.regs.f) (r : Proc × Cpu × Mem) (hr : ld_toio_c p c m = some r) :
    FInv r.2.1.regs.f := by
  simp only [ld_toio_c, Cpu.fetch, Cpu.stack_push, Cpu.stack_pop,
    alu_add, alu_sub, alu_adc, alu_add_u16] at hr
  repeat' (first | (split_ifs at hr) | (split at hr))
  all_goals
    first
      | exact Option.noConfusion hr
      | (injection hr with hr
         subst hr
         simp only [rstore_f, set_pclo_f, set_pchi_f, set_splo_f, set_sphi_f, set_hl_f]
         repeat first
           | exact h
           | exact finv_zero
           | exact finv_and240 _ (bread_lt _ _)
           | (refine finvZ _ _ ?_)
           | (refine finvN _ _ ?_)
           | (refine finvH _ _ ?_)
           | (refine finvC _ _ ?_))

set_option maxHeartbeats 4000000 in
set_option maxRecDepth 16384 in
/-- The ld_fromio_c step function preserves the flag invariant: each write to F goes
through fset on a defined high-nibble bit, clears F, or masks with 0xF0. -/
theorem ld_fromio_c_finv (p : Proc) (c : Cpu) (m : Mem)
    (h : FInv c.regs.f) (r : Proc × Cpu × Mem) (hr : ld_fromio_c p c m = some r) :
    FInv r.2.1.regs.f := by
  simp only [ld_fromio_c, Cpu.fetch, Cpu.stack_push, Cpu.stack_pop,
    alu_add, alu_sub, alu_adc, alu_add_u16] at hr
  repeat' (first | (split_ifs at hr) | (split at hr))
  all_goals
    first
      | exact Option.noConfusion hr
      | (injection hr with hr
         subst hr
         simp only [rstore_f, set_pclo_f, set_pchi_f, set_splo_f, set_sphi_f, set_hl_f]
         repeat first
           | exact h
           | exact finv_zero
           | exact finv_and240 _ (bread_lt _ _)
           | (refine finvZ _ _ ?_)
           | (refine finvN _ _ ?_)
           | (refine finvH _ _ ?_)
           | (refine finvC _ _ ?_))

set_option maxHeartbeats 4000000 in
set_option maxRecDepth 16384 in
/-- The ld_toio_u8 step function preserves the flag invariant: each write to F goes
through fset on a defined high-nibble bit, clears F, or masks with 0xF0. -/
theorem ld_toio_u8_finv (p : Proc) (c : Cpu) (m : Mem)
    (h : FInv c.regs.f) (r : Proc × Cpu × Mem) (hr : ld_toio_u8 p c m = some r) :
    FInv r.2.1.regs.f := by
  simp only [ld_toio_u8, Cpu.fetch, Cpu.stack_push, Cpu.stack_pop,
    alu_add, alu_sub, alu_adc, alu_add_u16] at hr
  repeat' (first | (split_ifs at hr) | (split at hr))
  all_goals
    first
      | exact Option.noConfusion hr
      | (injection hr with hr
         subst hr
         simp only [rstore_f, set_pclo_f, set_pchi_f, set_splo_f, set_sphi_f, set_hl_f]
         repeat first
           | exact h
           | exact finv_zero
           | exact finv_and240 _ (bread_lt _ _)
           | (refine finvZ _ _ ?_)
           | (refine finvN _ _ ?_)
           | (refine finvH _ _ ?_)
           | (refine finvC _ _ ?_))

set_option maxHeartbeats 4000000 in
set_option maxRecDepth 16384 in
/-- The ld_fromio_u8 step function preserves the flag invariant: each write to F goes
through fset on a defined high-nibble bit, clears F, or masks with 0xF0. -/
theorem ld_fromio_u8_finv (p : Proc) (c : Cpu) (m : Mem)
    (h : FInv c.regs.f) (r : Proc × Cpu × Mem) (hr : ld_fromio_u8 p c m = some r) :
    FInv r.2.1.regs.f := by
  simp only [ld_fromio_u8, Cpu.fetch, Cpu.stack_push, Cpu.stack_pop,
    alu_add, alu_sub, alu_adc, alu_add_u16] at hr
  repeat' (first | (split_ifs at hr) | (split at hr))
  all_goals
    first
      | exact Option.noConfusion hr
      | (injection hr with hr
         subst hr
         simp only [rstore_f, set_pclo_f, set_pchi_f, set_splo_f, set_sphi_f, set_hl_f]
         repeat first
           | exact h
           | exact finv_zero
           | exact finv_and240 _ (bread_lt _ _)
           | (refine finvZ _ _ ?_)
           | (refine finvN _ _ ?_)
           | (refine finvH _ _ ?_)
           | (refine finvC _ _ ?_))

set_option maxHeartbeats 4000000 in
set_option maxRecDepth 16384 in
/-- The rot step function preserves the flag invariant: each write to F goes
through fset on a defined high-nibble bit, clears F, or masks with 0xF0. -/
theorem rot_finv (p : Proc) (c : Cpu) (m : Mem)
    (h : FInv c.regs.f) (r : Proc × Cpu × Mem) (hr : rot p c m = some r) :
    FInv r.2.1.regs.f := by
  simp only [rot, Cpu.fetch, Cpu.stack_push, Cpu.stack_pop,
    alu_add, alu_sub, alu_adc, alu_add_u16] at hr
  repeat' (first | (split_ifs at hr) | (split at hr))
  all_goals
    first
      | exact Option.noConfusion hr
      | (injection hr with hr
         subst hr
         simp only [rstore_f, set_pclo_f, set_pchi_f, set_splo_f, set_sphi_f, set_hl_f]
         repeat first
           | exact h
           | exact finv_zero
           | exact finv_and240 _ (bread_lt _ _)
           | (refine finvZ _ _ ?_)
           | (refine finvN _ _ ?_)
           | (refine finvH _ _ ?_)
           | (refine finvC _ _ ?_))

set_option maxHeartbeats 4000000 in
set_option maxRecDepth 16384 in
/-- The bit step function preserves the flag invariant: each write to F goes
through fset on a defined high-nibble bit, clears F, or masks with 0xF0. -/
theorem bit_finv (p : Proc) (c : Cpu) (m : Mem)
    (h : FInv c.regs.f) (r : Proc × Cpu × Mem) (hr : bit p c m = some r) :
    FInv r.2.1.regs.f := by
  simp only [bit, Cpu.fetch, Cpu.stack_push, Cpu.stack_pop,
    alu_add, alu_sub, alu_adc, alu_add_u16] at hr
  repeat' (first | (split_ifs at hr) | (split at hr))
  all_goals
    first
      | exact Option.noConfusion hr
      | (injection hr with hr
         subst hr
         simp only [rstore_f, set_pclo_f, set_pchi_f, set_splo_f, set_sphi_f, set_hl_f]
         repeat first
           | exact h
           | exact finv_zero
           | exact finv_and240 _ (bread_lt _ _)
           | (refine finvZ _ _ ?_)
           | (refine finvN _ _ ?_)
           | (refine finvH _ _ ?_)
           | (refine finvC _ _ ?_))

set_option maxHeartbeats 4000000 in
set_option maxRecDepth 16384 in
/-- The res step function preserves the flag invariant: each write to F goes
through fset on a defined high-nibble bit, clears F, or masks with 0xF0. -/
theorem res_finv (p : Proc) (c : Cpu) (m : Mem)
    (h : FInv c.regs.f) (r : Proc × Cpu × Mem) (hr : res p c m = some r) :
    FInv r.2.1.regs.f := by
  simp only [res, Cpu.fetch, Cpu.stack_push, Cpu.stack_pop,
    alu_add, alu_sub, alu_adc, alu_add_u16] at hr
  repeat' (first | (split_ifs at hr) | (split at hr))
  all_goals
    first
      | exact Option.noConfusion hr
      | (injection hr with hr
         subst hr
         simp only [rstore_f, set_pclo_f, set_pchi_f, set_splo_f, set_sphi_f, set_hl_f]
         repeat first
           | exact h
           | exact finv_zero
           | exact finv_and240 _ (bread_lt _ _)
           | (refine finvZ _ _ ?_)
           | (refine finvN _ _ ?_)
           | (refine finvH _ _ ?_)
           | (refine finvC _ _ ?_))

set_option maxHeartbeats 4000000 in
set_option maxRecDepth 16384 in
/-- The set step function preserves the flag invariant: each write to F goes
through fset on a defined high-nibble bit, clears F, or masks with 0xF0. -/
theorem set_finv (p : Proc) (c : Cpu) (m : Mem)
    (h : FInv c.regs.f) (r : Proc × Cpu × Mem) (hr : set p c m = some r) :
    FInv r.2.1.regs.f := by
  simp only [set, Cpu.fetch, Cpu.stack_push, Cpu.stack_pop,
    alu_add, alu_sub, alu_adc, alu_add_u16] at hr
  repeat' (first | (split_ifs at hr) | (split at hr))
  all_goals
    first
      | exact Option.noConfusion hr
      | (injection hr with hr
         subst hr
         simp only [rstore_f, set_pclo_f, set_pchi_f, set_splo_f, set_sphi_f, set_hl_f]
         repeat first
           | exact h
           | exact finv_zero
           | exact finv_and240 _ (bread_lt _ _)
           | (refine finvZ _ _ ?_)
           | (refine finvN _ _ ?_)
           | (refine finvH _ _ ?_)
           | (refine finvC _ _ ?_))

/-- Every step function preserves the flag invariant: dispatch over the 56
step functions of cpu.rs. -/
theorem stepOf_finv (k : ProcKind) (p : Proc) (c : Cpu) (m : Mem)
    (h : FInv c.regs.f) (r : Proc × Cpu × Mem) (hr : stepOf k p c m = some r) :
    FInv r.2.1.regs.f := by
  cases k
  case nop => exact nop_finv p c m h r hr
  case stop => exact stop_finv p c m h r hr
  case ld_u16sp => exact ld_u16sp_finv p c m h r hr
  case ld_u16a => exact ld_u16a_finv p c m h r hr
  case ld_au16 => exact ld_au16_finv p c m h r hr
  case jr_d => exact jr_d_finv p c m h r hr
  case jr_cond => exact jr_cond_finv p c m h r hr
  case jp_u16 => exact jp_u16_finv p c m h r hr
  case jp_hl => exact jp_hl_finv p c m h r hr
  case di => exact di_finv p c m h r hr
  case ei => exact ei_finv p c m h r hr
  case inc_r => exact inc_r_finv p c m h r hr
  case dec_r => exact dec_r_finv p c m h r hr
  case inc_rp => exact inc_rp_finv p c m h r hr
  case dec_rp => exact dec_rp_finv p c m h r hr
  case add_ar => exact add_ar_finv p c m h r hr
  case sub_ar => exact sub_ar_finv p c m h r hr
  case and_ar => exact and_ar_finv p c m h r hr
  case xor_ar => exact xor_ar_finv p c m h r hr
  case or_ar => exact or_ar_finv p c m h r hr
  case cp_ar => exact cp_ar_finv p c m h r hr
  case ld_ru8 => exact ld_ru8_finv p c m h r hr
  case ld_rr => exact ld_rr_finv p c m h r hr
  case rlca => exact rlca_finv p c m h r hr
  case rrca => exact rrca_finv p c m h r hr
  case rla => exact rla_finv p c m h r hr
  case rra => exact rra_finv p c m h r hr
  case daa => exact daa_finv p c m h r hr
  case cpl => exact cpl_finv p c m h r hr
  case scf => exact scf_finv p c m h r hr
  case ccf => exact ccf_finv p c m h r hr
  case add_au8 => exact add_au8_finv p c m h r hr
  case adc_au8 => exact adc_au8_finv p c m h r hr
  case sub_au8 => exact sub_au8_finv p c m h r hr
  case and_au8 => exact and_au8_finv p c m h r hr
  case xor_au8 => exact xor_au8_finv p c m h r hr
  case or_au8 => exact or_au8_finv p c m h r hr
  case cp_au8 => exact cp_au8_finv p c m h r hr
  case ld_toindirect => exact ld_toindirect_finv p c m h r hr
  case ld_fromindirect => exact ld_fromindirect_finv p c m h r hr
  case pop => exact pop_finv p c m h r hr
  case push => exact push_finv p c m h r hr
  case call_cond => exact call_cond_finv p c m h r hr
  case call_u16 => exact call_u16_finv p c m h r hr
  case ret => exact ret_finv p c m h r hr
  case ret_cond => exact ret_cond_finv p c m h r hr
  case add_hlrp => exact add_hlrp_finv p c m h r hr
  case ld_sphl => exact ld_sphl_finv p c m h r hr
  case ld_rpu16 => exact ld_rpu16_finv p c m h r hr
  case ld_toio_c => exact ld_toio_c_finv p c m h r hr
  case ld_fromio_c => exact ld_fromio_c_finv p c m h r hr
  case ld_toio_u8 => exact ld_toio_u8_finv p c m h r hr
  case ld_fromio_u8 => exact ld_fromio_u8_finv p c m h r hr
  case rot => exact rot_finv p c m h r hr
  case bit => exact bit_finv p c m h r hr
  case res => exact res_finv p c m h r hr
  case set => exact set_finv p c m h r hr
theorem decode_f (c : Cpu) (m : Mem) (c1 : Cpu) (p : Proc)
    (h : decode c m = some (c1, p)) : c1.regs.f = c.regs.f := by
  unfold decode at h
  simp only [Cpu.fetch] at h
  split_ifs at h <;>
    (rw [Option.map_eq_some'] at h
     obtain ⟨k, hk, hpair⟩ := h
     injection hpair with h1 h2
     subst h1
     rfl)

/-- One T-cycle preserves the flag invariant. -/
theorem tcycle_finv (c : Cpu) (m : Mem) (h : FInv c.regs.f)
    (r : Cpu × Mem) (hr : tcycle c m = some r) : FInv r.1.regs.f := by
  unfold tcycle at hr
  simp only [Option.map_eq_some'] at hr
  obtain ⟨s, hs, hmap⟩ := hr
  have hgoal : r.1.regs.f = s.1.regs.f := by
    subst hmap; rfl
  rw [hgoal]
  split_ifs at hs with htc
  · cases hpr : c.procedure with
    | some p =>
      rw [hpr] at hs
      simp only [] at hs
      cases hstep : Proc.step p c m with
      | none => rw [hstep] at hs; exact Option.noConfusion hs
      | some t =>
        rw [hstep] at hs
        simp only [] at hs
        unfold Proc.step at hstep
        rw [Option.map_eq_some'] at hstep
        obtain ⟨r0, hr0, ht⟩ := hstep
        have hc2 : FInv t.2.1.regs.f := by
          have hh := stepOf_finv p.func p c m h r0 hr0
          subst ht
          exact hh
        split_ifs at hs <;>
          (injection hs with hs; subst hs; exact hc2)
    | none =>
      rw [hpr] at hs
      simp only [] at hs
      cases hdec : decode (imeAdvance c) m with
      | none => rw [hdec] at hs; exact Option.noConfusion hs
      | some cp =>
        rw [hdec] at hs
        simp only [] at hs
        have hf1 : cp.1.regs.f = c.regs.f := by
          rw [decode_f (imeAdvance c) m cp.1 cp.2 (by rw [← hdec]), imeAdvance_regs]
        cases hstep : Proc.step cp.2 { cp.1 with procedure := some cp.2 } m with
        | none => rw [hstep] at hs; exact Option.noConfusion hs
        | some t =>
          rw [hstep] at hs
          simp only [] at hs
          unfold Proc.step at hstep
          rw [Option.map_eq_some'] at hstep
          obtain ⟨r0, hr0, ht⟩ := hstep
          have hbase : FInv ({ cp.1 with procedure := some cp.2 } : Cpu).regs.f := by
            show FInv cp.1.regs.f
            rw [hf1]
            exact h
          have hc2 : FInv t.2.1.regs.f := by
            have hh := stepOf_finv cp.2.func cp.2 { cp.1 with procedure := some cp.2 } m hbase r0 hr0
            subst ht
            exact hh
          split_ifs at hs <;>
            (injection hs with hs; subst hs; exact hc2)
  · injection hs with hs
    subst hs
    exact h

/-- Any number of T-cycles preserves the flag invariant. -/
theorem runT_finv (n : Nat) : ∀ (s r : Cpu × Mem),
    FInv s.1.regs.f → runT n s = some r → FInv r.1.regs.f := by
  induction n with
  | zero =>
    intro s r h hr
    injection hr with hr
    subst hr
    exact h
  | succ n ih =>
    intro s r h hr
    rw [runT_succ] at hr
    cases ht : tcycle s.1 s.2 with
    | none => rw [ht] at hr; exact Option.noConfusion hr
    | some s1 =>
      rw [ht] at hr
      simp only [Option.some_bind] at hr
      exact ih s1 r (tcycle_finv s.1 s.2 h s1 ht) hr

end GB

namespace GB

/-- A successful bus write to any address other than 0xFF50 leaves the
boot-disable latch and the cartridge untouched (only the PPU, Memory or
CPU-register subcomponents change). -/
theorem busWrite_pres (b : Bus) (a d : Nat) (b1 : Bus) (ha : a ≠ 0xFF50)
    (h : busWrite b a d = some b1) :
    b1.boot_disabled = b.boot_disabled ∧ b1.cart = b.cart := by
  unfold busWrite at h
  by_cases g1 : a ≤ 0x00FF ∧ b.boot_disabled = 0
  case pos =>
    rw [if_pos g1] at h
    injection h with h
    subst h
    exact ⟨rfl, rfl⟩
  rw [if_neg g1] at h
  by_cases g2 : a ≤ 0x7FFF
  case pos =>
    rw [if_pos g2, Option.map_eq_some'] at h
    obtain ⟨s, hs, rfl⟩ := h
    unfold cartWrite at hs
    split_ifs at hs
    injection hs with hs
    subst hs
    exact ⟨rfl, rfl⟩
  rw [if_neg g2] at h
  by_cases g3 : a ≤ 0x9FFF
  case pos =>
    rw [if_pos g3, Option.map_eq_some'] at h
    obtain ⟨s, hs, rfl⟩ := h
    exact ⟨rfl, rfl⟩
  rw [if_neg g3] at h
  by_cases g4 : a ≤ 0xBFFF
  case pos =>
    rw [if_pos g4, Option.map_eq_some'] at h
    obtain ⟨s, hs, rfl⟩ := h
    unfold cartWrite at hs
    split_ifs at hs
    injection hs with hs
    subst hs
    exact ⟨rfl, rfl⟩
  rw [if_neg g4] at h
  by_cases g5 : a ≤ 0xFDFF
  case pos =>
    rw [if_pos g5, Option.map_eq_some'] at h
    obtain ⟨s, hs, rfl⟩ := h
    exact ⟨rfl, rfl⟩
  rw [if_neg g5] at h
  by_cases g6 : a ≤ 0xFEFF
  case pos =>
    rw [if_pos g6, Option.map_eq_some'] at h
    obtain ⟨s, hs, rfl⟩ := h
    exact ⟨rfl, rfl⟩
  rw [if_neg g6] at h
  by_cases g7 : (0xFF00 ≤ a ∧ a ≤ 0xFF02) ∨ (0xFF04 ≤ a ∧ a ≤ 0xFF07)
  case pos =>
    rw [if_pos g7, Option.map_eq_some'] at h
    obtain ⟨s, hs, rfl⟩ := h
    exact ⟨rfl, rfl⟩
  rw [if_neg g7] at h
  by_cases g8 : a = 0xFF0F
  case pos =>
    rw [if_pos g8, Option.map_eq_some'] at h
    obtain ⟨s, hs, rfl⟩ := h
    exact ⟨rfl, rfl⟩
  rw [if_neg g8] at h
  by_cases g9 : (0xFF10 ≤ a ∧ a ≤ 0xFF26) ∨ (0xFF30 ≤ a ∧ a ≤ 0xFF3F)
  case pos =>
    rw [if_pos g9, Option.map_eq_some'] at h
    obtain ⟨s, hs, rfl⟩ := h
    exact ⟨rfl, rfl⟩
  rw [if_neg g9] at h
  by_cases g10 : (0xFF40 ≤ a ∧ a ≤ 0xFF4B) ∨ a = 0xFF4F
  case pos =>
    rw [if_pos g10, Option.map_eq_some'] at h
    obtain ⟨s, hs, rfl⟩ := h
    exact ⟨rfl, rfl⟩
  rw [if_neg g10] at h
  by_cases g11 : a = 0xFF50
  case pos => exact absurd g11 ha
  rw [if_neg g11] at h
  by_cases g12 : (0xFF51 ≤ a ∧ a ≤ 0xFF55) ∨ (0xFF68 ≤ a ∧ a ≤ 0xFF69)
  case pos =>
    rw [if_pos g12, Option.map_eq_some'] at h
    obtain ⟨s, hs, rfl⟩ := h
    exact ⟨rfl, rfl⟩
  rw [if_neg g12] at h
  by_cases g13 : a = 0xFF70
  case pos =>
    rw [if_pos g13, Option.map_eq_some'] at h
    obtain ⟨s, hs, rfl⟩ := h
    exact ⟨rfl, rfl⟩
  rw [if_neg g13] at h
  by_cases g14 : 0xFF72 ≤ a ∧ a ≤ 0xFF75
  case pos =>
    rw [if_pos g14, Option.map_eq_some'] at h
    obtain ⟨s, hs, rfl⟩ := h
    exact ⟨rfl, rfl⟩
  rw [if_neg g14] at h
  by_cases g15 : 0xFF76 ≤ a ∧ a ≤ 0xFF77
  case pos =>
    rw [if_pos g15, Option.map_eq_some'] at h
    obtain ⟨s, hs, rfl⟩ := h
    exact ⟨rfl, rfl⟩
  rw [if_neg g15] at h
  by_cases g16 : 0xFF80 ≤ a ∧ a ≤ 0xFFFE
  case pos =>
    rw [if_pos g16, Option.map_eq_some'] at h
    obtain ⟨s, hs, rfl⟩ := h
    exact ⟨rfl, rfl⟩
  rw [if_neg g16] at h
  by_cases g17 : a = 0xFFFF
  case pos =>
    rw [if_pos g17, Option.map_eq_some'] at h
    obtain ⟨s, hs, rfl⟩ := h
    exact ⟨rfl, rfl⟩
  rw [if_neg g17] at h
  exact Option.noConfusion h

/-- A successful sequence of bus writes avoiding address 0xFF50 leaves the
boot-disable latch and the cartridge untouched. -/
theorem applyWrites_pres (ops : List (Nat × Nat)) : ∀ (b b2 : Bus),
    (∀ op ∈ ops, op.1 ≠ 0xFF50) → applyWrites b ops = some b2 →
    b2.boot_disabled = b.boot_disabled ∧ b2.cart = b.cart := by
  induction ops with
  | nil =>
    intro b b2 hno h
    injection h with h
    subst h
    exact ⟨rfl, rfl⟩
  | cons op ops ih =>
    intro b b2 hno h
    unfold applyWrites at h
    cases hw : busWrite b op.1 op.2 with
    | none => rw [hw] at h; exact Option.noConfusion h
    | some b1 =>
      rw [hw] at h
      have h1 := busWrite_pres b op.1 op.2 b1 (hno op (List.mem_cons_self op ops)) hw
      have h2 := ih b1 b2 (fun o ho => hno o (List.mem_cons_of_mem op ho)) h
      exact ⟨h2.1.trans h1.1, h2.2.trans h1.2⟩

end GB

namespace GB

/-- The Gameboy-mode initial register file (Regs::new, original DMG). -/
def gbRegs : Regs :=
  { a := 0x01, f := 0xB0, b := 0x00, c := 0x13, d := 0x00, e := 0xD8,
    h := 0x01, l := 0x4D, sp := 0xFFFE, pc := 0x0000 }

/-- The Gameboy-mode initial CPU (Cpu::new, original DMG). -/
def gbCpu : Cpu :=
  { instr_count := 1, mode := .Gameboy, tcount := 0, procedure := none,
    regs := gbRegs, interrupt_flags := 0, interrupt_enable := 0,
    en_ime := (false, 0), ime := false }

/-- A store holding only the opcode 0xAB (XOR A,E) at address 0. -/
def c1Mem : Mem := fun a => if a = 0 then 0xAB else 0

/-- Gameboy start state with A = 0x00, D = 0x0F, E = 0xF0. -/
def c1Cpu : Cpu := { gbCpu with regs := { gbRegs with a := 0x00, d := 0x0F, e := 0xF0 } }

/-- C1: the claim says the ALU operand for z = 3 is register E, so XOR A,E
(opcode 0xAB) should leave A = old A xor old E.  The code instead selects
register D in all six ALU A,r tables (the 3-arm reads cpu.regs.d): executing
0xAB from A=0x00, D=0x0F, E=0xF0 yields A = 0x0F = A xor D, while the claim
demands A = 0xF0 = A xor E.  E is unchanged either way. -/
theorem c1_xor_ae_operand_is_d :
    (runT 4 (c1Cpu, c1Mem)).map (fun s => (s.1.regs.a, s.1.regs.d, s.1.regs.e))
      = some (0x0F, 0x0F, 0xF0)
    ∧ (0x0F : Nat) ≠ 0x00 ^^^ 0xF0 :=
  ⟨rfl, by decide⟩

/-- A store holding the CB-prefixed SWAP B instruction (CB 30). -/
def c3Mem : Mem := fun a => if a = 0 then 0xCB else if a = 1 then 0x30 else 0

/-- Gameboy start state with B = 0x12 (initial F = 0xB0 has Carry set). -/
def c3Cpu : Cpu := { gbCpu with regs := { gbRegs with b := 0x12 } }

/-- C3: the claim says CB SWAP r always clears the Carry flag.  The rot
table of the source passes the OLD carry bit through as the carry-out of the
SWAP arm: executing CB 30 (SWAP B) from F = 0xB0 (Carry set) retires with
F = 0x10, i.e. Carry still set, contradicting C = 0.  (The result byte is
0x11, also exposing that the nibble-swap formula keeps the high nibble.) -/
theorem c3_swap_preserves_carry :
    (runT 8 (c3Cpu, c3Mem)).map (fun s => (s.1.regs.b, s.1.regs.f)) = some (0x11, 0x10)
    ∧ fget 0x10 maskC = true :=
  ⟨rfl, by decide⟩

/-- JR C, +5 (opcode 0x38) at address 0; Gameboy initial F = 0xB0 has Carry
set, so the branch is taken. -/
def c4MemTaken : Mem := fun a => if a = 0 then 0x38 else if a = 1 then 0x05 else 0

/-- JR NC, +5 (opcode 0x30): with Carry set the branch is not taken. -/
def c4MemNotTaken : Mem := fun a => if a = 0 then 0x30 else if a = 1 then 0x05 else 0

/-- C4: the claim says conditional JR retires after 3 M-cycles (12 T-cycles)
taken and 2 M-cycles (8 T-cycles) not taken.  In the code, jr_cond evaluates
the condition in M-cycle 3 and the taken path adds an idle M-cycle 4 before
updating PC in M-cycle 5: a taken JR C is still in flight after 12 T-cycles
and retires only after 20 (5 M-cycles), and a not-taken JR NC is still in
flight after 8 T-cycles and retires after 12 (3 M-cycles). -/
theorem c4_jr_cond_timing :
    (boot .Gameboy c4MemTaken 12).map (fun s => s.1.procedure.isSome) = some true
    ∧ (boot .Gameboy c4MemTaken 20).map (fun s => (s.1.procedure.isSome, s.1.regs.pc))
        = some (false, 7)
    ∧ (boot .Gameboy c4MemNotTaken 8).map (fun s => s.1.procedure.isSome) = some true
    ∧ (boot .Gameboy c4MemNotTaken 12).map (fun s => (s.1.procedure.isSome, s.1.regs.pc))
        = some (false, 2) :=
  ⟨rfl, rfl, rfl, rfl⟩

/-- C7: the claim says Memory.write never aborts on WRAM addresses.  The
trailing debug block of Memory::write panics when 0x00 is written to address
0xDD02 (the read-back always matches, then the data == 0x00 check fires), so
the write aborts on that concrete input. -/
theorem c7_wram_write_dd02_zero_panics :
    memWrite (Memory.new .Gameboy) 0xDD02 0x00 = none := rfl

/-- The three-instruction program LD HL,0x00FF; INC L; INC L at address 0. -/
def c10Mem : Mem := fun a =>
  if a = 0 then 0x21 else if a = 1 then 0xFF else if a = 2 then 0x00
  else if a = 3 then 0x2C else if a = 4 then 0x2C else 0

/-- C10 counterexample: running the scenario program for its 5 M-cycles
(20 T-cycles) from the Gameboy reset state leaves register H = 0x00 (INC L
is an 8-bit increment and never carries into H) and F = 0x10, whose
HalfCarry bit is clear (the second INC has no low-nibble carry), refuting
the claimed H = 0x01 and H-flag = 1. -/
theorem c10_inc_l_counterexample :
    (boot .Gameboy c10Mem 20).map (fun s => (s.1.regs.h, s.1.regs.l, s.1.regs.f))
      = some (0x00, 0x01, 0x10)
    ∧ (0x00 : Nat) ≠ 0x01 ∧ fget 0x10 maskH = false :=
  ⟨rfl, by decide, by decide⟩

/-- C10 (amended): after LD HL,0x00FF; INC L; INC L from the Gameboy reset
state, H = 0x00, L = 0x01, Z = 0, N = 0, the H flag is 0, and C is
unchanged from its initial value (the Carry bit of the reset F = 0xB0). -/
theorem c10_inc_l_actual :
    (boot .Gameboy c10Mem 20).map (fun s => (s.1.regs.h, s.1.regs.l, s.1.regs.f))
      = some (0x00, 0x01, 0x10)
    ∧ fget 0x10 maskZ = false ∧ fget 0x10 maskN = false
    ∧ fget 0x10 maskH = false ∧ fget 0x10 maskC = fget 0xB0 maskC :=
  ⟨rfl, by decide, by decide, by decide, by decide⟩

/-- C6 counterexample: in Gameboy (non-GBC) mode, Memory.read of 0xFF72
falls through every arm to the unimplemented panic instead of returning
0xFF. -/
theorem c6_read_ff72_panics :
    memRead (Memory.new .Gameboy) 0xFF72 = none ∧ (none : Option Nat) ≠ some 0xFF :=
  ⟨rfl, by decide⟩

/-- C6 (amended): for every memory state whose SystemMode is not Color-GBC,
Memory.read of 0xFF74 returns 0xFF, while reads of 0xFF72, 0xFF73 and
0xFF75 abort (the unimplemented panic): only 0xFF74 has an unguarded arm. -/
theorem c6_undoc_reads (s : Memory) (h : s.mode ≠ SystemMode.GameboyColorGBC) :
    memRead s 0xFF74 = some 0xFF ∧ memRead s 0xFF72 = none
    ∧ memRead s 0xFF73 = none ∧ memRead s 0xFF75 = none := by
  refine ⟨?_, ?_, ?_, ?_⟩ <;> simp [memRead, memReadNoEcho, h]

/-- Witness for c6_undoc_reads at the Gameboy-mode initial memory. -/
theorem c6_undoc_reads_witness :
    (Memory.new .Gameboy).mode ≠ SystemMode.GameboyColorGBC
    ∧ (memRead (Memory.new .Gameboy) 0xFF74 = some 0xFF
       ∧ memRead (Memory.new .Gameboy) 0xFF72 = none
       ∧ memRead (Memory.new .Gameboy) 0xFF73 = none
       ∧ memRead (Memory.new .Gameboy) 0xFF75 = none) :=
  ⟨by decide, c6_undoc_reads (Memory.new .Gameboy) (by decide)⟩

/-- C8 counterexample: Regs::set_af does not mask the low nibble of the
written F value (unlike the pop and push procedures): set_af with 0x000F
leaves F = 0x0F, so not every F-writing operation masks the low nibble.
(The function is never called by any instruction procedure, so the
reachable-state invariant below still holds.) -/
theorem c8_set_af_unmasked :
    (Regs.set_af { a := 0, f := 0, b := 0, c := 0, d := 0, e := 0, h := 0,
                   l := 0, sp := 0, pc := 0 } 0x000F).f = 0x0F
    ∧ (0x0F : Nat) % 16 ≠ 0 :=
  ⟨rfl, by decide⟩

/-- C8 (amended): in every CPU state reachable from any constructible
SystemMode initial state by step_tcycle (over an arbitrary byte store), the
low four bits of F are zero; every executed write to F (including POP AF
and PUSH AF) masks the low nibble, though the never-called set_af helper
does not. -/
theorem c8_flag_low_nibble_invariant (mode : SystemMode) (c0 : Cpu)
    (h0 : Cpu.new mode = some c0) (m0 : Mem) (n : Nat) (r : Cpu × Mem)
    (hr : runT n (c0, m0) = some r) :
    r.1.regs.f % 16 = 0 := by
  have hInv : FInv c0.regs.f := by
    cases mode <;> simp only [Cpu.new, Regs.new, Option.map] at h0 <;>
      first
        | exact Option.noConfusion h0
        | (injection h0 with h0; subst h0; decide)
  exact (runT_finv n (c0, m0) r hInv hr).2

/-- Witness for c8_flag_low_nibble_invariant: the Gameboy initial state,
zero store, zero steps. -/
theorem c8_flag_low_nibble_invariant_witness :
    Cpu.new SystemMode.Gameboy = some gbCpu
    ∧ runT 0 (gbCpu, fun _ => 0) = some (gbCpu, fun _ => 0)
    ∧ gbCpu.regs.f % 16 = 0 :=
  ⟨rfl, rfl,
   c8_flag_low_nibble_invariant SystemMode.Gameboy gbCpu rfl (fun _ => 0) 0
     (gbCpu, fun _ => 0) rfl⟩

end GB

namespace GB

set_option maxHeartbeats 4000000 in
/-- C2: for every CB-prefixed rotation/shift/SWAP with (HL) operand (any
second opcode byte with x = 0 and z = 6) and every starting CPU state at a
decode boundary, the four-M-cycle procedure writes the byte read in M-cycle
3 back to (HL) unchanged, so the byte store after retirement equals the one
before; only F changes, set from the rotated result and carry-out of the
rot table, while A, B, C, D, E, H, L and SP are untouched and PC advances
by the two fetched bytes. -/
theorem c2_rot_hl_mem_unchanged (c : Cpu) (m : Mem) (op : Nat)
    (htc : c.tcount = 0) (hpr : c.procedure = none)
    (hbytes : ∀ a, m a < 256)
    (hcb : m c.regs.pc = 0xCB)
    (hop : m ((c.regs.pc + 1) % 65536) = op)
    (hx : (op &&& 192) >>> 6 = 0)
    (hz : op &&& 7 = 6) :
    ∃ co res,
      rotOp ((op &&& 56) >>> 3) ((fget c.regs.f maskC).toNat) (m c.regs.hl) = some (co, res) ∧
      (runT 16 (c, m)).map (fun s =>
        (s.1.regs.a, s.1.regs.b, s.1.regs.c, s.1.regs.d, s.1.regs.e, s.1.regs.h,
         s.1.regs.l, s.1.regs.sp, s.1.regs.f, s.1.regs.pc, s.1.procedure.isSome, s.2))
      = some (c.regs.a, c.regs.b, c.regs.c, c.regs.d, c.regs.e, c.regs.h,
              c.regs.l, c.regs.sp, fset (fset 0 maskZ (res == 0)) maskC (co != 0),
              (c.regs.pc + 2) % 65536, false, m) := by
  have hy7 : (op &&& 56) >>> 3 ≤ 7 := by
    have h1 : op &&& 56 ≤ 56 := Nat.and_le_right
    omega
  obtain ⟨⟨co, res⟩, hrot⟩ := rotOp_isSome ((op &&& 56) >>> 3)
      ((fget c.regs.f maskC).toNat) (m c.regs.hl) hy7
  refine ⟨co, res, hrot, ?_⟩
  have hop256 : op % 256 = op := Nat.mod_eq_of_lt (hop ▸ hbytes _)
  have hA : (((c.regs.pc + 1) % 65536 + 1) % 65536 + 65535) % 65536
      = (c.regs.pc + 1) % 65536 := by omega
  have hA2 : (c.regs.pc + 2 + 65535) % 65536 = (c.regs.pc + 1) % 65536 := by omega
  have hpc2 : ((c.regs.pc + 1) % 65536 + 1) % 65536 = (c.regs.pc + 2) % 65536 := by omega
  have hhl : m ((c.regs.h <<< 8) ||| c.regs.l) % 256 = m ((c.regs.h <<< 8) ||| c.regs.l) :=
    Nat.mod_eq_of_lt (hbytes _)
  have hrot2 := hrot
  unfold Regs.hl at hrot2
  simp [runT_succ, tcycle, htc, hpr, imeAdvance_regs, imeAdvance_tcount,
        imeAdvance_procedure, imeAdvance_instr, imeAdvance_mode,
        decode, Cpu.fetch, bread, hcb, hop, hop256, selectCB, hx, Proc.new,
        Proc.step, stepOf, rot, pcm1, hA, hA2, hz, Regs.hl, hhl, hrot2, hpc2,
        bwrite_self, runT]

/-- A byte store with CB 16 (RL (HL)) at address 0 and 0x37 elsewhere. -/
def c2wMem : Mem := fun a => if a = 0 then 0xCB else if a = 1 then 0x16 else 0x37

/-- Witness for c2_rot_hl_mem_unchanged: RL (HL), opcode byte 0x16, from the
Gameboy initial state. -/
theorem c2_rot_hl_mem_unchanged_witness :
    gbCpu.tcount = 0 ∧ gbCpu.procedure = none ∧ (∀ a, c2wMem a < 256)
    ∧ c2wMem gbCpu.regs.pc = 0xCB
    ∧ c2wMem ((gbCpu.regs.pc + 1) % 65536) = 0x16
    ∧ (0x16 &&& 192) >>> 6 = 0 ∧ 0x16 &&& 7 = 6
    ∧ (∃ co res,
        rotOp ((0x16 &&& 56) >>> 3) ((fget gbCpu.regs.f maskC).toNat)
            (c2wMem gbCpu.regs.hl) = some (co, res) ∧
        (runT 16 (gbCpu, c2wMem)).map (fun s =>
          (s.1.regs.a, s.1.regs.b, s.1.regs.c, s.1.regs.d, s.1.regs.e, s.1.regs.h,
           s.1.regs.l, s.1.regs.sp, s.1.regs.f, s.1.regs.pc, s.1.procedure.isSome, s.2))
        = some (gbCpu.regs.a, gbCpu.regs.b, gbCpu.regs.c, gbCpu.regs.d, gbCpu.regs.e,
                gbCpu.regs.h, gbCpu.regs.l, gbCpu.regs.sp,
                fset (fset 0 maskZ (res == 0)) maskC (co != 0),
                (gbCpu.regs.pc + 2) % 65536, false, c2wMem)) := by
  have hbytes : ∀ a, c2wMem a < 256 := by
    intro a
    unfold c2wMem
    split_ifs <;> decide
  exact ⟨rfl, rfl, hbytes, rfl, rfl, by decide, by decide,
         c2_rot_hl_mem_unchanged gbCpu c2wMem 0x16 rfl rfl hbytes rfl rfl
           (by decide) (by decide)⟩

end GB

namespace GB

set_option maxHeartbeats 4000000 in
/-- C9: for every stack pair index p (0 BC, 1 DE, 2 HL, 3 AF), every byte
valued starting register state at a decode boundary, and every byte store
holding PUSH rp2 then POP rp2 at PC whose two stack cells below SP do not
alias the POP opcode cell, the seven-M-cycle (28 T-cycle) sequence restores
every register to its pre-PUSH value (F masked to its high nibble when
p = 3) and leaves SP at its pre-PUSH value, with PC advanced by two. -/
theorem c9_push_pop_roundtrip (c : Cpu) (m : Mem) (p : Nat)
    (htc : c.tcount = 0) (hpr : c.procedure = none) (hp : p < 4)
    (hba : c.regs.a < 256) (hbf : c.regs.f < 256) (hbb : c.regs.b < 256)
    (hbc : c.regs.c < 256) (hbd : c.regs.d < 256) (hbe : c.regs.e < 256)
    (hbh : c.regs.h < 256) (hbl : c.regs.l < 256)
    (hsp : c.regs.sp < 65536) (hpc : c.regs.pc < 65536)
    (hpush : m c.regs.pc = 0xC5 + 16 * p)
    (hpop : m ((c.regs.pc + 1) % 65536) = 0xC1 + 16 * p)
    (hs1 : (c.regs.sp + 65535) % 65536 ≠ (c.regs.pc + 1) % 65536)
    (hs2 : (c.regs.sp + 65534) % 65536 ≠ (c.regs.pc + 1) % 65536) :
    (runT 28 (c, m)).map (fun s =>
      (s.1.regs.a, s.1.regs.b, s.1.regs.c, s.1.regs.d, s.1.regs.e, s.1.regs.h,
       s.1.regs.l, s.1.regs.f, s.1.regs.sp, s.1.regs.pc, s.1.procedure.isSome))
    = some (c.regs.a, c.regs.b, c.regs.c, c.regs.d, c.regs.e, c.regs.h, c.regs.l,
            (if p = 3 then c.regs.f &&& 240 else c.regs.f), c.regs.sp,
            (c.regs.pc + 2) % 65536, false) := by
  have hB1 : (c.regs.pc + 1 + 65535) % 65536 = c.regs.pc := by omega
  have hC : (c.regs.sp + 65535 + 65535) % 65536 = (c.regs.sp + 65534) % 65536 := by omega
  have hD : (c.regs.pc + 1 + 1 + 65535) % 65536 = (c.regs.pc + 1) % 65536 := by omega
  have hE : (c.regs.sp + 65534 + 1) % 65536 = (c.regs.sp + 65535) % 65536 := by omega
  have hF : (c.regs.sp + 65535) % 65536 ≠ (c.regs.sp + 65534) % 65536 := by omega
  have hG : (c.regs.sp + 65535 + 1) % 65536 = c.regs.sp := by omega
  have hH : (c.regs.pc + 1 + 1) % 65536 = (c.regs.pc + 2) % 65536 := by omega
  have hma : c.regs.a % 256 = c.regs.a := Nat.mod_eq_of_lt hba
  have hmb : c.regs.b % 256 = c.regs.b := Nat.mod_eq_of_lt hbb
  have hmc : c.regs.c % 256 = c.regs.c := Nat.mod_eq_of_lt hbc
  have hmd : c.regs.d % 256 = c.regs.d := Nat.mod_eq_of_lt hbd
  have hme : c.regs.e % 256 = c.regs.e := Nat.mod_eq_of_lt hbe
  have hmh : c.regs.h % 256 = c.regs.h := Nat.mod_eq_of_lt hbh
  have hml : c.regs.l % 256 = c.regs.l := Nat.mod_eq_of_lt hbl
  have hmf : (c.regs.f &&& 240) % 256 = c.regs.f &&& 240 :=
    Nat.mod_eq_of_lt (Nat.lt_of_le_of_lt Nat.and_le_left hbf)
  have hff : c.regs.f &&& 240 &&& 240 = c.regs.f &&& 240 := by
    rw [Nat.and_assoc]; rfl
  have hselC5 : selectMain 197 = some ProcKind.push := rfl
  have hselD5 : selectMain 213 = some ProcKind.push := rfl
  have hselE5 : selectMain 229 = some ProcKind.push := rfl
  have hselF5 : selectMain 245 = some ProcKind.push := rfl
  have hselC1 : selectMain 193 = some ProcKind.pop := rfl
  have hselD1 : selectMain 209 = some ProcKind.pop := rfl
  have hselE1 : selectMain 225 = some ProcKind.pop := rfl
  have hselF1 : selectMain 241 = some ProcKind.pop := rfl
  have hiC5 : (197 &&& 48) >>> 4 = 0 := rfl
  have hiD5 : (213 &&& 48) >>> 4 = 1 := rfl
  have hiE5 : (229 &&& 48) >>> 4 = 2 := rfl
  have hiF5 : (245 &&& 48) >>> 4 = 3 := rfl
  have hiC1 : (193 &&& 48) >>> 4 = 0 := rfl
  have hiD1 : (209 &&& 48) >>> 4 = 1 := rfl
  have hiE1 : (225 &&& 48) >>> 4 = 2 := rfl
  have hiF1 : (241 &&& 48) >>> 4 = 3 := rfl
  interval_cases p <;>
    simp [runT, runT_succ, tcycle, htc, hpr, imeAdvance_regs, imeAdvance_tcount,
          imeAdvance_procedure, imeAdvance_instr, imeAdvance_mode,
          decode, Cpu.fetch, bread, bwrite, hpush, hpop, Proc.new,
          Proc.step, stepOf, push, pop, pcm1, Cpu.stack_push, Cpu.stack_pop,
          hselC5, hselD5, hselE5, hselF5, hselC1, hselD1, hselE1, hselF1,
          hiC5, hiD5, hiE5, hiF5, hiC1, hiD1, hiE1, hiF1,
          hB1, hC, hD, hE, hF, hG, hH, hs1, hs2, Ne.symm hs1, Ne.symm hs2,
          hma, hmb, hmc, hmd, hme, hmh, hml, hmf, hff]

/-- A byte store with PUSH BC at 0 and POP BC at 1. -/
def c9wMem : Mem := fun a => if a = 0 then 0xC5 else if a = 1 then 0xC1 else 0

/-- Witness for c9_push_pop_roundtrip: PUSH BC; POP BC from the Gameboy
initial state (SP = 0xFFFE, PC = 0). -/
theorem c9_push_pop_roundtrip_witness :
    gbCpu.tcount = 0 ∧ gbCpu.procedure = none ∧ (0 : Nat) < 4
    ∧ gbCpu.regs.a < 256 ∧ gbCpu.regs.f < 256 ∧ gbCpu.regs.b < 256
    ∧ gbCpu.regs.c < 256 ∧ gbCpu.regs.d < 256 ∧ gbCpu.regs.e < 256
    ∧ gbCpu.regs.h < 256 ∧ gbCpu.regs.l < 256
    ∧ gbCpu.regs.sp < 65536 ∧ gbCpu.regs.pc < 65536
    ∧ c9wMem gbCpu.regs.pc = 0xC5 + 16 * 0
    ∧ c9wMem ((gbCpu.regs.pc + 1) % 65536) = 0xC1 + 16 * 0
    ∧ (gbCpu.regs.sp + 65535) % 65536 ≠ (gbCpu.regs.pc + 1) % 65536
    ∧ (gbCpu.regs.sp + 65534) % 65536 ≠ (gbCpu.regs.pc + 1) % 65536
    ∧ (runT 28 (gbCpu, c9wMem)).map (fun s =>
        (s.1.regs.a, s.1.regs.b, s.1.regs.c, s.1.regs.d, s.1.regs.e, s.1.regs.h,
         s.1.regs.l, s.1.regs.f, s.1.regs.sp, s.1.regs.pc, s.1.procedure.isSome))
      = some (gbCpu.regs.a, gbCpu.regs.b, gbCpu.regs.c, gbCpu.regs.d, gbCpu.regs.e,
              gbCpu.regs.h, gbCpu.regs.l,
              (if (0 : Nat) = 3 then gbCpu.regs.f &&& 240 else gbCpu.regs.f),
              gbCpu.regs.sp, (gbCpu.regs.pc + 2) % 65536, false) :=
  ⟨rfl, rfl, by decide, by decide, by decide, by decide, by decide, by decide,
   by decide, by decide, by decide, by decide, by decide, rfl, rfl,
   by decide, by decide,
   c9_push_pop_roundtrip gbCpu c9wMem 0 rfl rfl (by decide) (by decide) (by decide)
     (by decide) (by decide) (by decide) (by decide) (by decide) (by decide)
     (by decide) (by decide) rfl rfl (by decide) (by decide)⟩

end GB

namespace GB

/-- A bus whose boot ROM reads 0x12 everywhere, with a one-byte cartridge
ROM [0xAA]; the boot ROM is currently disabled (latch = 1). -/
def c5Bus : Bus :=
  { cpu := { interrupt_flags := 0, interrupt_enable := 0 }, ppu := Ppu.new,
    mem := Memory.new .Gameboy, cart := { rom := [0xAA] },
    boot_rom := fun _ => 0x12, boot_disabled := 1 }

/-- C5 counterexample: the claim says that after Bus.write(0xFF50, v) for
EVERY byte v, including v = 0, low reads return cartridge bytes for the
rest of the run.  The latch arm stores the written byte verbatim, so
writing v = 0 re-enables the boot ROM: after busWrite 0xFF50 0 on a bus
with the latch already set, reading 0x0000 returns the boot byte 0x12, not
the cartridge byte 0xAA. -/
theorem c5_write_zero_reenables_boot :
    (busWrite c5Bus 0xFF50 0).bind (fun b1 => busRead b1 0x0000) = some 0x12
    ∧ cartRead c5Bus.cart 0x0000 = some 0xAA ∧ (0x12 : Nat) ≠ 0xAA :=
  ⟨rfl, rfl, by decide⟩

/-- C5 (amended): after Bus.write(0xFF50, v) with v NONZERO, and for as
long as no further write targets 0xFF50, every read of 0x0000-0x00FF
routes to the cartridge ROM (the byte at that address, 0xFF out of bounds)
and never to the boot ROM; a later write of zero to 0xFF50 would re-enable
the boot bytes, which is what the counterexample exhibits. -/
theorem c5_boot_disable_persists (b : Bus) (v : Nat) (b1 : Bus) (hv : v ≠ 0)
    (hw : busWrite b 0xFF50 v = some b1)
    (ops : List (Nat × Nat)) (hops : ∀ op ∈ ops, op.1 ≠ 0xFF50)
    (b2 : Bus) (happ : applyWrites b1 ops = some b2)
    (a : Nat) (haddr : a ≤ 0x00FF) :
    busRead b2 a = some (b.cart.rom.getD a 0xFF) := by
  have hb1 : b1.boot_disabled = v ∧ b1.cart = b.cart := by
    unfold busWrite at hw
    rw [if_neg (by omega), if_neg (by norm_num), if_neg (by norm_num),
        if_neg (by norm_num), if_neg (by norm_num), if_neg (by norm_num),
        if_neg (by norm_num), if_neg (by norm_num), if_neg (by norm_num),
        if_neg (by norm_num), if_pos rfl] at hw
    injection hw with hw
    subst hw
    exact ⟨rfl, rfl⟩
  obtain ⟨hbd, hcart⟩ := applyWrites_pres ops b1 b2 hops happ
  unfold busRead
  rw [if_neg, if_pos (by omega : a ≤ 0x7FFF)]
  · unfold cartRead
    rw [if_pos (by omega : a ≤ 0x7FFF), hcart, hb1.2]
  · intro hcontra
    rw [hbd, hb1.1] at hcontra
    exact hv hcontra.2

/-- Witness for c5_boot_disable_persists: write 1 to the latch on c5Bus,
no further writes, then read address 0. -/
theorem c5_boot_disable_persists_witness :
    (1 : Nat) ≠ 0
    ∧ busWrite c5Bus 0xFF50 1 = some { c5Bus with boot_disabled := 1 }
    ∧ (∀ op ∈ ([] : List (Nat × Nat)), op.1 ≠ 0xFF50)
    ∧ applyWrites { c5Bus with boot_disabled := 1 } [] = some { c5Bus with boot_disabled := 1 }
    ∧ (0 : Nat) ≤ 0x00FF
    ∧ busRead { c5Bus with boot_disabled := 1 } 0 = some (c5Bus.cart.rom.getD 0 0xFF) :=
  ⟨by decide, rfl, by simp, rfl, by decide,
   c5_boot_disable_persists c5Bus 1 { c5Bus with boot_disabled := 1 } (by decide)
     rfl [] (by simp) { c5Bus with boot_disabled := 1 } rfl 0 (by decide)⟩

end GB
